import Mathlib

/-!
# Verification of the F1 pit-stop prediction service core

Shallow embedding of the tire-degradation estimator (`ml-service/model.py`)
and the strategy-impact simulator (`ml-service/main.py`) over exact rational
arithmetic, together with proofs about the embedded definitions.

Modelling conventions:
* Python floats are modelled as exact rationals (`ℚ`); decimal literals such
  as `1.2`, `0.05`, `0.3` become the corresponding rationals.
* `numpy.std` returns the square root of the population variance, which is
  irrational in general.  Every comparison the code makes against the
  standard deviation is re-expressed on squares (`|d − μ| < 2σ` becomes
  `(d − μ)² < 4·var`), which is equivalent over the reals; the fitted model
  therefore stores `lap_time_var = σ²` instead of `σ`, and the confidence
  blend — the one place the code uses `σ` linearly — is modelled as a
  separate function of an arbitrary standard-deviation argument.
* Python's built-in `round` and `sorted` are modelled by integer rounding
  and by a stable sort (`List.insertionSort`), which has the same
  input-order tie-breaking behaviour as Python's stable sort.
* `numpy.argsort` (used only to pick the samples closest to the mean) is
  modelled as a stable sort on squared deviations; numpy's default
  introsort may break ties among equal deviations differently, which can
  only affect which of several equally-distant samples are retained.
* `sklearn` least-squares fits are modelled by the exact normal-equation
  solution (Cramer's rule).  A singular design matrix (fewer than three
  distinct stint laps for the quadratic fit, fewer than two for the linear
  fit) falls back to zero coefficients; for the linear fit this matches the
  minimum-norm solution of the centered system, and no claim depends on the
  singular quadratic case.
-/

namespace F1

/-- Python `round(x, 3)` modelled over `ℚ`.  Mathlib's `round` rounds exact
halves up whereas Python rounds them to even; no proved statement depends on
the behaviour at an exact midpoint. -/
def pyRound3 (x : ℚ) : ℚ := (round (x * 1000) : ℤ) / 1000

/-- Python `round(x, 4)` modelled over `ℚ`. -/
def pyRound4 (x : ℚ) : ℚ := (round (x * 10000) : ℤ) / 10000

/-- `numpy.mean` of a list of rationals. -/
def listMean (l : List ℚ) : ℚ := l.sum / l.length

/-- The square of `numpy.std`: the population variance. -/
def listVar (l : List ℚ) : ℚ := ((l.map fun x => (x - listMean l) ^ 2).sum) / l.length

/-- `numpy.min` of a nonempty list (`0` as a junk value on `[]`, never used
on an empty list by the pipeline). -/
def listMin : List ℚ → ℚ
  | [] => 0
  | x :: xs => xs.foldl min x

/-- A lap sample as consumed by `TireDegradationModel.fit`:
the stint-lap number paired with the lap duration in seconds. -/
abbrev Sample := ℤ × ℚ

/-- `TireDegradationModel.MIN_LAPS_REQUIRED`. -/
def MIN_LAPS_REQUIRED : ℕ := 5

/-- The fallback of `_remove_outliers` (model.py:63-68): `argsort` the
samples by a deviation measure (stably, on indices), mark the first `k`
indices, and keep the marked samples in their original order, as numpy's
boolean-mask indexing does. -/
def fiveClosest (dev : Sample → ℚ) (k : ℕ) (s : List Sample) : List Sample :=
  let sortedIdx := s.enum.insertionSort fun a b => dev a.2 ≤ dev b.2
  let chosen := (sortedIdx.take k).map Prod.fst
  (s.enum.filter fun a => a.1 ∈ chosen).map Prod.snd

/-- `TireDegradationModel._remove_outliers` (model.py:48-70).
Keeps the samples whose duration lies strictly within two standard
deviations of the mean (`|d − μ| < 2σ`, expressed on squares as
`(d − μ)² < 4·σ²`); keeps everything when the standard deviation is zero;
and when fewer than `MIN_LAPS_REQUIRED` samples would survive, keeps
instead the `MIN_LAPS_REQUIRED` samples closest to the mean. -/
def removeOutliers (s : List Sample) : List Sample :=
  let ys := s.map Prod.snd
  let μ := listMean ys
  let v := listVar ys
  if v = 0 then s
  else
    let kept := s.filter fun p => (p.2 - μ) ^ 2 < 4 * v
    if kept.length < MIN_LAPS_REQUIRED then
      fiveClosest (fun p => (p.2 - μ) ^ 2) MIN_LAPS_REQUIRED s
    else kept

/-- Exact least-squares fit of `y ≈ c + b·x + a·x²` over the samples
(the `PolynomialFeatures(degree=2)` + `LinearRegression` pipeline),
solved from the normal equations by Cramer's rule.  Returns `(c, b, a)`.
Zero on a singular design (see module docstring). -/
def quadFit (s : List Sample) : ℚ × ℚ × ℚ :=
  let n : ℚ := s.length
  let sx := (s.map fun p => (p.1 : ℚ)).sum
  let sx2 := (s.map fun p => (p.1 : ℚ) ^ 2).sum
  let sx3 := (s.map fun p => (p.1 : ℚ) ^ 3).sum
  let sx4 := (s.map fun p => (p.1 : ℚ) ^ 4).sum
  let sy := (s.map fun p => p.2).sum
  let sxy := (s.map fun p => (p.1 : ℚ) * p.2).sum
  let sx2y := (s.map fun p => (p.1 : ℚ) ^ 2 * p.2).sum
  let det := n * (sx2 * sx4 - sx3 * sx3) - sx * (sx * sx4 - sx3 * sx2)
      + sx2 * (sx * sx3 - sx2 * sx2)
  if det = 0 then (0, 0, 0)
  else
    let detc := sy * (sx2 * sx4 - sx3 * sx3) - sx * (sxy * sx4 - sx3 * sx2y)
        + sx2 * (sxy * sx3 - sx2 * sx2y)
    let detb := n * (sxy * sx4 - sx2y * sx3) - sy * (sx * sx4 - sx3 * sx2)
        + sx2 * (sx * sx2y - sxy * sx2)
    let deta := n * (sx2 * sx2y - sx3 * sxy) - sx * (sx * sx2y - sxy * sx2)
        + sy * (sx * sx3 - sx2 * sx2)
    (detc / det, detb / det, deta / det)

/-- Exact least-squares slope of the simple linear regression
`LinearRegression().fit(X_clean, y_clean).coef_[0]` (model.py:110-112).
On a singular (all-equal-`x`) design the centered minimum-norm solution has
slope `0`, which the fallback reproduces. -/
def linSlope (s : List Sample) : ℚ :=
  let n : ℚ := s.length
  let sx := (s.map fun p => (p.1 : ℚ)).sum
  let sx2 := (s.map fun p => (p.1 : ℚ) ^ 2).sum
  let sy := (s.map fun p => p.2).sum
  let sxy := (s.map fun p => (p.1 : ℚ) * p.2).sum
  let den := n * sx2 - sx * sx
  if den = 0 then 0 else (n * sxy - sx * sy) / den

/-- The distinct `ValueError` / failure kinds of `fit`
(model.py:83-84, 86-87, 98-99). -/
inductive FitError
  | insufficientData
  | lengthMismatch
  | insufficientCleanData
deriving DecidableEq, Repr

/-- The state of a `TireDegradationModel` after a successful `fit`
(model.py:40-46 and the assignments in `fit`), together with the fitted
pipeline coefficients.  `lap_time_var` is the square of the code's
`lap_time_std` (see module docstring). -/
structure FittedModel where
  coef_c : ℚ
  coef_b : ℚ
  coef_a : ℚ
  degradation_threshold : ℚ
  base_lap_time : ℚ
  degradation_rate : ℚ
  r_squared : ℚ
  laps_analyzed : ℕ
  lap_time_var : ℚ
  is_degrading : Bool
deriving DecidableEq, Repr

/-- The residual sum of squares of the quadratic fit over the retained
samples (model.py:120-121): `y_pred = model.predict(X_clean)`,
`ss_res = Σ (y_clean − y_pred)²`. -/
def ssRes (cleaned : List Sample) : ℚ :=
  let ys := cleaned.map Prod.snd
  let cba := quadFit cleaned
  let y_pred := cleaned.map fun p => cba.1 + cba.2.1 * p.1 + cba.2.2 * p.1 ^ 2
  ((ys.zip y_pred).map fun q => (q.1 - q.2) ^ 2).sum

/-- The total sum of squares of the retained durations (model.py:122):
`ss_tot = Σ (y_clean − mean(y_clean))²`. -/
def ssTot (cleaned : List Sample) : ℚ :=
  let ys := cleaned.map Prod.snd
  ((ys.map fun y => (y - listMean ys) ^ 2)).sum

/-- The state assignments of the successful branch of `fit`
(model.py:101-126), as a function of the retained samples. -/
def fitModel (cleaned : List Sample) (degradation_threshold : ℚ) : FittedModel :=
  let ys := cleaned.map Prod.snd
  let cba := quadFit cleaned
  let first_half_avg := if ys.length > 1 then listMean (ys.take (ys.length / 2))
    else ys.headD 0
  let second_half_avg := if ys.length > 1 then listMean (ys.drop (ys.length / 2))
    else ys.headD 0
  let r2 := if ssTot cleaned > 0 then 1 - ssRes cleaned / ssTot cleaned else 0
  { coef_c := cba.1
    coef_b := cba.2.1
    coef_a := cba.2.2
    degradation_threshold := degradation_threshold
    base_lap_time := listMin ys
    degradation_rate := linSlope cleaned
    r_squared := max 0 (min 1 r2)
    laps_analyzed := cleaned.length
    lap_time_var := listVar ys
    is_degrading := decide (second_half_avg > first_half_avg) }

/-- `TireDegradationModel.fit` (model.py:72-127). -/
def fit (stint_laps : List ℤ) (lap_durations : List ℚ) (degradation_threshold : ℚ) :
    Except FitError FittedModel :=
  if stint_laps.length < MIN_LAPS_REQUIRED ∨ lap_durations.length < MIN_LAPS_REQUIRED then
    .error .insufficientData
  else if stint_laps.length ≠ lap_durations.length then
    .error .lengthMismatch
  else
    let cleaned := removeOutliers (stint_laps.zip lap_durations)
    if cleaned.length < MIN_LAPS_REQUIRED then
      .error .insufficientCleanData
    else
      .ok (fitModel cleaned degradation_threshold)

/-- `TireDegradationModel.predict_lap_time` (model.py:129-133); the
`is_fitted` runtime check is a type-level fact here (a `FittedModel`
exists only after a successful `fit`). -/
def predictLapTime (m : FittedModel) (stint_lap : ℤ) : ℚ :=
  m.coef_c + m.coef_b * stint_lap + m.coef_a * stint_lap ^ 2

/-- The recommendation bands of `_generate_recommendation`
(model.py:229-250).  The Python strings additionally interpolate the
numeric rate and the optimal pit lap into the text; only the band choice
is modelled. -/
inductive Recommendation
  | improvingSignificantly
  | stableOrImproving
  | minimalDegradation
  | lowDegradation
  | moderateDegradation
  | highDegradation
  | severeDegradation
deriving DecidableEq, Repr

/-- `TireDegradationModel._generate_recommendation` (model.py:229-250). -/
def generateRecommendation (m : FittedModel) : Recommendation :=
  if m.is_degrading = false then
    if m.degradation_rate < -(1/50) then .improvingSignificantly
    else .stableOrImproving
  else
    let deg_rate := |m.degradation_rate|
    if deg_rate < 1/50 then .minimalDegradation
    else if deg_rate < 1/20 then .lowDegradation
    else if deg_rate < 2/25 then .moderateDegradation
    else if deg_rate < 3/25 then .highDegradation
    else .severeDegradation

/-- The record returned by `predict_pit_window` (model.py:9-17, 183-192).
The `confidence` field is omitted here because it is the one output that
uses the irrational `lap_time_std` linearly; `_calculate_confidence` is
modelled separately as `calcConfidence` below and verified on its own. -/
structure PitStopPrediction where
  optimal_pit_lap : ℤ
  degradation_rate : ℚ
  r2_score : ℚ
  laps_analyzed : ℕ
  predicted_lap_times : List ℚ
  is_degrading : Bool
  recommendation : Recommendation
deriving DecidableEq, Repr

/-- Python `range(current, max+1)` over `ℤ`. -/
def futureLaps (current_stint_lap max_stint_length : ℤ) : List ℤ :=
  (List.range (max_stint_length + 1 - current_stint_lap).toNat).map
    fun i : ℕ => current_stint_lap + (i : ℤ)

/-- The threshold-scan of `predict_pit_window` (model.py:157-172): the
optimal pit lap before the flooring step.  When the tires are degrading at
a positive rate, the first future lap whose predicted time strictly exceeds
`base_lap_time + degradation_threshold`, defaulting to `max_stint_length`
when no lap crosses the threshold; otherwise `max_stint_length` directly. -/
def optimalPitLap0 (m : FittedModel) (current_stint_lap max_stint_length : ℤ) : ℤ :=
  if m.is_degrading ∧ 0 < m.degradation_rate then
    let threshold_time := m.base_lap_time + m.degradation_threshold
    match (futureLaps current_stint_lap max_stint_length).find?
        (fun lap => decide (threshold_time < predictLapTime m lap)) with
    | some lap => lap
    | none => max_stint_length
  else max_stint_length

/-- `TireDegradationModel.predict_pit_window` (model.py:135-192). -/
def predictPitWindow (m : FittedModel) (current_stint_lap max_stint_length : ℤ) :
    PitStopPrediction :=
  let predicted_times := (futureLaps current_stint_lap max_stint_length).map (predictLapTime m)
  let optimal_pit_lap := max (optimalPitLap0 m current_stint_lap max_stint_length)
    (current_stint_lap + 1)
  { optimal_pit_lap := optimal_pit_lap
    degradation_rate := pyRound4 m.degradation_rate
    r2_score := pyRound3 m.r_squared
    laps_analyzed := m.laps_analyzed
    predicted_lap_times := (predicted_times.take 10).map pyRound3
    is_degrading := m.is_degrading
    recommendation := generateRecommendation m }

/-- `TireDegradationModel._calculate_confidence` (model.py:194-227), as a
function of the fitted quantities it reads (`lap_time_std` is the standard
deviation itself, kept as an arbitrary rational argument). -/
def calcConfidence (r_squared : ℚ) (laps_analyzed : ℕ) (lap_time_std : ℚ)
    (base_lap_time : ℚ) (degradation_rate : ℚ) : ℚ :=
  let r2_component := max 0 r_squared * (2/5)
  let laps_component := min ((laps_analyzed : ℚ) / 15) 1 * (3/10)
  let normalized_std :=
    if 0 < base_lap_time then min (lap_time_std / base_lap_time) (1/20) / (1/20)
    else 1
  let consistency_component := (1 - normalized_std) * (3/10)
  let confidence := r2_component + laps_component + consistency_component
  let confidence := if 3/10 < |degradation_rate| then confidence * (7/10) else confidence
  max 0 (min 1 confidence)

/-- The confidence formula exactly as the specification words it:
`0.4·r² + 0.3·min(laps/15, 1) + 0.3·(1 − min(std/base, 0.05)/0.05)`, with
`normalized_std = 1` when `base_lap_time` is `0`, multiplied by `0.7` when
`|degradation_rate| > 0.3`.  Stated separately from `calcConfidence` so the
two can be compared. -/
def specConfidence (r_squared : ℚ) (laps_analyzed : ℕ) (lap_time_std : ℚ)
    (base_lap_time : ℚ) (degradation_rate : ℚ) : ℚ :=
  let normalized_std :=
    if base_lap_time = 0 then 1
    else min (lap_time_std / base_lap_time) (1/20) / (1/20)
  let blend := (2/5) * r_squared + (3/10) * min ((laps_analyzed : ℚ) / 15) 1
    + (3/10) * (1 - normalized_std)
  if 3/10 < |degradation_rate| then blend * (7/10) else blend

/-! ## The adapter's pre-filter (`main.py`, `predict_pitstop`) -/

/-- `sorted(lap_durations)[len(lap_durations) // 2]` (main.py:141) — the
upper median of the durations (`0` as a junk value on an empty list, which
the endpoint rejects earlier). -/
def medianDuration (lap_durations : List ℚ) : ℚ :=
  ((lap_durations.insertionSort (· ≤ ·)).get? (lap_durations.length / 2)).getD 0

/-- The pre-filter of `predict_pitstop` (main.py:138-151): keep the samples
whose duration is strictly below `1.2 ×` the median duration, falling back
to the unfiltered sample set when fewer than `MIN_LAPS_REQUIRED` survive. -/
def preFilter (samples : List Sample) : List Sample :=
  let median_duration := medianDuration (samples.map Prod.snd)
  let valid := samples.filter fun p => p.2 < median_duration * (6/5)
  if valid.length < MIN_LAPS_REQUIRED then samples else valid

/-! ## Strategy Impact Simulator (`main.py`, `predict_strategy_impact`) -/

/-- One entry of `drivers_data` (main.py:55-60). -/
structure DriverLapData where
  driver_number : ℤ
  driver_name : String
  total_time : ℚ
  avg_lap_time : ℚ
  laps_completed : ℕ
deriving DecidableEq, Repr

/-- A nearby-driver record (main.py:72-76). -/
structure NearbyDriver where
  driver_number : ℤ
  driver_name : String
  gap : ℚ
  position : ℕ
deriving DecidableEq, Repr

/-- One entry of the `projected_standings` dictionaries (main.py:227-245). -/
structure ProjEntry where
  driver_number : ℤ
  driver_name : String
  projected_time : ℚ
  is_target : Bool
deriving DecidableEq, Repr

/-- The client-error outcomes of `predict_strategy_impact`
(main.py:194-195, 204-205). -/
inductive StrategyError
  | emptyStandings
  | driverNotFound
deriving DecidableEq, Repr

/-- The response record (main.py:79-87). -/
structure StrategyImpactResponse where
  current_position : ℕ
  projected_position : ℕ
  position_change : ℤ
  time_lost_in_pit : ℚ
  time_gained_fresh_tires : ℚ
  net_time_impact : ℚ
  ahead_of : List NearbyDriver
  behind_of : List NearbyDriver
deriving DecidableEq, Repr

/-- Python's stable `sorted(l, key=...)` for a rational key. -/
def sortByKey {α : Type} (key : α → ℚ) (l : List α) : List α :=
  l.insertionSort fun a b => key a ≤ key b

/-- The projected standings built at main.py:227-245: the target driver is
projected at their cumulative time plus the pit-stop time, every other
driver at their cumulative time plus their own average lap time. -/
def projectedEntry (target_driver_number : ℤ) (target_projected_time : ℚ)
    (d : DriverLapData) : ProjEntry :=
  if d.driver_number = target_driver_number then
    { driver_number := d.driver_number
      driver_name := d.driver_name
      projected_time := target_projected_time
      is_target := true }
  else
    { driver_number := d.driver_number
      driver_name := d.driver_name
      projected_time := d.total_time + d.avg_lap_time
      is_target := false }

/-- The sorted projected standings (main.py:227-248). -/
def projStandings (target_driver_number : ℤ) (target_projected_time : ℚ)
    (drivers_data : List DriverLapData) : List ProjEntry :=
  sortByKey (·.projected_time)
    (drivers_data.map (projectedEntry target_driver_number target_projected_time))

/-- The `for`-loop position searches of main.py:211-215 and 251-255: the
1-based index of the first match, defaulting to `1` when there is none
(the loop variable keeps its initial value). -/
def posOfFindIdx : Option ℕ → ℕ
  | some i => i + 1
  | none => 1

/-- The body of `predict_strategy_impact` once the target driver has been
located (main.py:207-299). -/
def strategyImpact (target_driver_number : ℤ) (drivers_data : List DriverLapData)
    (target_driver : DriverLapData) (pit_stop_time fresh_tire_advantage : ℚ)
    (fresh_tire_laps : ℕ) : StrategyImpactResponse :=
  let sorted_drivers := sortByKey (·.total_time) drivers_data
  let current_position := posOfFindIdx (sorted_drivers.findIdx?
    (fun d => decide (d.driver_number = target_driver_number)))
  let time_lost_in_pit := pit_stop_time
  let time_gained_fresh_tires := fresh_tire_advantage * fresh_tire_laps
  let net_time_impact := time_lost_in_pit - time_gained_fresh_tires
  let target_projected_time := target_driver.total_time + time_lost_in_pit
  let projS := projStandings target_driver_number target_projected_time drivers_data
  let projected_position := posOfFindIdx (projS.findIdx? (·.is_target))
  let target_idx := (projS.findIdx? (·.is_target)).getD 0
  let ahead_of :=
    ((projS.enum.drop (target_idx + 1)).take 3).map fun x =>
      { driver_number := x.2.driver_number
        driver_name := x.2.driver_name
        gap := pyRound3 (x.2.projected_time - target_projected_time)
        position := x.1 + 1 : NearbyDriver }
  let behind_of :=
    (((projS.enum.take target_idx).drop (target_idx - 3)).map fun x =>
      { driver_number := x.2.driver_number
        driver_name := x.2.driver_name
        gap := pyRound3 (target_projected_time - x.2.projected_time)
        position := x.1 + 1 : NearbyDriver }).reverse
  { current_position := current_position
    projected_position := projected_position
    position_change := (current_position : ℤ) - projected_position
    time_lost_in_pit := pyRound3 time_lost_in_pit
    time_gained_fresh_tires := pyRound3 time_gained_fresh_tires
    net_time_impact := pyRound3 net_time_impact
    ahead_of := ahead_of
    behind_of := behind_of }

/-- `predict_strategy_impact` (main.py:183-299). -/
def predictStrategyImpact (target_driver_number : ℤ) (drivers_data : List DriverLapData)
    (pit_stop_time fresh_tire_advantage : ℚ) (fresh_tire_laps : ℕ) :
    Except StrategyError StrategyImpactResponse :=
  if drivers_data = [] then .error .emptyStandings
  else
    match drivers_data.find? (fun d => decide (d.driver_number = target_driver_number)) with
    | none => .error .driverNotFound
    | some target_driver =>
      .ok (strategyImpact target_driver_number drivers_data target_driver pit_stop_time
        fresh_tire_advantage fresh_tire_laps)

/-! ## Stable sorting: rank characterization

Python's `sorted` is a stable sort; `List.insertionSort` with `≤` on the
key has exactly the same tie-breaking behaviour.  The lemmas here
characterize the 1-based position of a uniquely identified element in the
stable sort as "number of strictly smaller keys, plus number of equal keys
occurring earlier in the input". -/

/-- In a filtered list, the first `pred`-element sits at the index given by
counting the `q`-elements in front of the first `pred`-element of the
original list (when that element itself satisfies `q`). -/
theorem findIdx?_filter_eq_countP_take {α : Type} (q pred : α → Bool) :
    ∀ (xs : List α) (i : ℕ), xs.findIdx? pred = some i →
      (∀ h : i < xs.length, q (xs.get ⟨i, h⟩) = true) →
      (xs.filter q).findIdx? pred = some ((xs.take i).countP q) := by
  intro xs
  induction xs with
  | nil => intro i h _; simp at h
  | cons x l ih =>
    intro i h hq
    rw [List.findIdx?_cons] at h
    by_cases hpx : pred x
    · rw [if_pos hpx] at h
      obtain rfl : (0:ℕ) = i := by simpa using h
      have hqx : q x = true := by simpa using hq (by simp)
      simp only [List.take_zero, List.countP_nil, List.filter_cons, hqx, if_pos]
      rw [List.findIdx?_cons, if_pos hpx]
    · rw [if_neg hpx, List.findIdx?_succ] at h
      rcases Option.map_eq_some'.mp h with ⟨i', hi', rfl⟩
      have hq' : ∀ hlt : i' < l.length, q (l.get ⟨i', hlt⟩) = true := by
        intro hlt
        have := hq (by simpa using Nat.succ_lt_succ hlt)
        simpa using this
      have IH := ih i' hi' hq'
      rw [List.take_succ_cons, List.filter_cons]
      by_cases hqx : q x
      · rw [if_pos hqx, List.findIdx?_cons, if_neg hpx, List.findIdx?_succ, IH]
        simp [List.countP_cons, hqx]
      · rw [if_neg hqx, IH]
        simp [List.countP_cons, hqx]

/-- Stability of `insertionSort` with a `≤`-by-key relation: the sublist of
elements with any fixed key value is unchanged (so ties keep their input
order, exactly like Python's stable `sorted`). -/
theorem insertionSort_filter_eq_key {α : Type} (key : α → ℚ) (c : ℚ) (l : List α) :
    ((l.insertionSort fun a b => key a ≤ key b).filter fun y => decide (key y = c)) =
      l.filter fun y => decide (key y = c) := by
  induction l with
  | nil => rfl
  | cons x xs ih =>
    rw [List.insertionSort, List.orderedInsert_eq_take_drop, List.filter_append,
      List.filter_cons]
    by_cases hqx : key x = c
    · have hA : (((xs.insertionSort fun a b => key a ≤ key b).takeWhile
          fun b => ¬ (key x ≤ key b)).filter fun y => decide (key y = c)) = [] := by
        rw [List.filter_eq_nil_iff]
        intro a ha hqa
        have hpa := List.mem_takeWhile_imp ha
        simp only [decide_eq_true_eq] at hpa hqa
        exact hpa (le_of_eq (hqx.trans hqa.symm))
      have hcomb : (((xs.insertionSort fun a b => key a ≤ key b).dropWhile
          fun b => ¬ (key x ≤ key b)).filter fun y => decide (key y = c)) =
          ((xs.insertionSort fun a b => key a ≤ key b).filter
            fun y => decide (key y = c)) := by
        conv_rhs => rw [← List.takeWhile_append_dropWhile
          (p := fun b => decide (¬ (key x ≤ key b)))
          (l := xs.insertionSort fun a b => key a ≤ key b)]
        rw [List.filter_append, hA, List.nil_append]
      rw [hA, if_pos (by simpa using hqx), List.nil_append, hcomb, ih,
        List.filter_cons, if_pos (by simpa using hqx)]
    · rw [if_neg (by simpa using hqx), ← List.filter_append,
        List.takeWhile_append_dropWhile, ih, List.filter_cons,
        if_neg (by simpa using hqx)]

/-- Exactly one element of `l` satisfies `pred`; any two members
satisfying it are equal. -/
theorem eq_of_countP_eq_one {α : Type} {l : List α} {pred : α → Bool}
    (hu : l.countP pred = 1) {a b : α} (ha : a ∈ l) (hpa : pred a = true)
    (hb : b ∈ l) (hpb : pred b = true) : a = b := by
  have h1 : a ∈ l.filter pred := List.mem_filter.mpr ⟨ha, hpa⟩
  have h2 : b ∈ l.filter pred := List.mem_filter.mpr ⟨hb, hpb⟩
  have hlen : (l.filter pred).length = 1 := by
    rw [← List.countP_eq_length_filter]
    exact hu
  rcases List.length_eq_one.mp hlen with ⟨u, hun⟩
  rw [hun] at h1 h2
  rw [List.mem_singleton.mp h1, List.mem_singleton.mp h2]

/-- **Rank characterization of the stable sort.**  When exactly one element
`t` of `l` satisfies `pred`, its 0-based index in the stable sort by `key`
is: the number of elements of `l` with a strictly smaller key, plus the
number of elements with an equal key that occur before `t` in the input
order. -/
theorem stable_sort_rank {α : Type} (key : α → ℚ) (pred : α → Bool) (l : List α)
    (t : α) (ht : t ∈ l) (hpt : pred t = true) (hu : l.countP pred = 1) :
    (l.insertionSort fun a b => key a ≤ key b).findIdx? pred =
      some (l.countP (fun y => decide (key y < key t)) +
        (l.take (l.findIdx pred)).countP (fun y => decide (key y = key t))) := by
  haveI : IsTotal α (fun a b => key a ≤ key b) := ⟨fun a b => le_total _ _⟩
  haveI : IsTrans α (fun a b => key a ≤ key b) := ⟨fun _ _ _ h1 h2 => le_trans h1 h2⟩
  haveI : IsRefl α (fun a b => key a ≤ key b) := ⟨fun _ => le_refl _⟩
  set S := l.insertionSort (fun a b => key a ≤ key b) with hSdef
  have hperm : S.Perm l := List.perm_insertionSort _ l
  have hsort : S.Sorted (fun a b => key a ≤ key b) := List.sorted_insertionSort _ l
  have hex : S.findIdx? pred = some (S.findIdx pred) :=
    List.findIdx?_eq_some_of_exists ⟨t, hperm.mem_iff.mpr ht, hpt⟩
  set i := S.findIdx pred with hidef
  rcases List.findIdx?_eq_some_iff_getElem.mp hex with ⟨hi, hpi, _⟩
  have hti : S.get ⟨i, hi⟩ = t :=
    eq_of_countP_eq_one hu (hperm.mem_iff.mp (List.get_mem S i hi)) (by simpa using hpi)
      ht hpt
  have htdrop : t ∈ S.drop i := by
    rw [List.drop_eq_getElem_cons hi]
    exact List.mem_cons.mpr (Or.inl (by simpa using hti.symm))
  have htake_le : ∀ y ∈ S.take i, key y ≤ key t := fun y hy =>
    hsort.rel_of_mem_take_of_mem_drop hy htdrop
  have hdrop_ge : ∀ y ∈ S.drop i, key t ≤ key y := by
    intro y hy
    rcases List.getElem_of_mem hy with ⟨j, hj, rfl⟩
    rw [List.getElem_drop]
    have hij : i + j < S.length := by
      have := List.length_drop i S
      omega
    have hrel := hsort.rel_get_of_le (a := ⟨i, hi⟩) (b := ⟨i + j, hij⟩)
      (by simp [Fin.mk_le_mk])
    rw [hti] at hrel
    simpa using hrel
  have hlt_drop : (S.drop i).countP (fun y => decide (key y < key t)) = 0 := by
    rw [List.countP_eq_zero]
    intro y hy
    simp only [decide_eq_true_eq, not_lt]
    exact hdrop_ge y hy
  have hlt_S : S.countP (fun y => decide (key y < key t)) =
      (S.take i).countP (fun y => decide (key y < key t)) := by
    conv_lhs => rw [← List.take_append_drop i S]
    rw [List.countP_append, hlt_drop, Nat.add_zero]
  have hqSi : ∀ h : i < S.length,
      (fun y => decide (key y = key t)) (S.get ⟨i, h⟩) = true := by
    intro h
    rw [show S.get ⟨i, h⟩ = t from hti]
    simp
  have hfileq := findIdx?_filter_eq_countP_take (fun y => decide (key y = key t))
    pred S i hex hqSi
  have hexl : l.findIdx? pred = some (l.findIdx pred) :=
    List.findIdx?_eq_some_of_exists ⟨t, ht, hpt⟩
  rcases List.findIdx?_eq_some_iff_getElem.mp hexl with ⟨hjl, hpj, _⟩
  have htj : l.get ⟨l.findIdx pred, hjl⟩ = t :=
    eq_of_countP_eq_one hu (List.get_mem l _ hjl) (by simpa using hpj) ht hpt
  have hqlj : ∀ h : l.findIdx pred < l.length,
      (fun y => decide (key y = key t)) (l.get ⟨l.findIdx pred, h⟩) = true := by
    intro h
    rw [show l.get ⟨l.findIdx pred, h⟩ = t from htj]
    simp
  have hfileql := findIdx?_filter_eq_countP_take (fun y => decide (key y = key t))
    pred l (l.findIdx pred) hexl hqlj
  have hstab : (S.filter fun y => decide (key y = key t)) =
      l.filter fun y => decide (key y = key t) :=
    insertionSort_filter_eq_key key (key t) l
  rw [hstab] at hfileq
  have heqcount : (S.take i).countP (fun y => decide (key y = key t)) =
      (l.take (l.findIdx pred)).countP (fun y => decide (key y = key t)) :=
    Option.some.inj (hfileq.symm.trans hfileql)
  have hltl : l.countP (fun y => decide (key y < key t)) =
      S.countP (fun y => decide (key y < key t)) := (hperm.countP_eq _).symm
  have hitake : (S.take i).length = i := by
    rw [List.length_take]
    omega
  have hcompl : ∀ y ∈ S.take i,
      ((fun a => decide (key a < key t)) y = false ↔
        (fun a => decide (key a = key t)) y = true) := by
    intro y hy
    simp only [decide_eq_false_iff_not, decide_eq_true_eq, not_lt]
    constructor
    · intro hge
      exact le_antisymm (htake_le y hy) hge
    · intro he
      exact le_of_eq he.symm
  have hsplitlen : i = (S.take i).countP (fun y => decide (key y < key t)) +
      (S.take i).countP (fun y => decide (key y = key t)) := by
    have h1 := List.length_eq_countP_add_countP
      (p := fun y => decide (key y < key t)) (S.take i)
    have h2 : (S.take i).countP (fun a => decide ¬ (decide (key a < key t) = true)) =
        (S.take i).countP (fun y => decide (key y = key t)) := by
      apply List.countP_congr
      intro y hy
      simp only [decide_eq_true_eq, decide_not, Bool.not_eq_true']
      simpa using hcompl y hy
    rw [hitake] at h1
    omega
  rw [hex]
  congr 1
  omega

/-! ## Basic facts about the prediction window -/

theorem mem_futureLaps {c M lap : ℤ} (h : lap ∈ futureLaps c M) : c ≤ lap ∧ lap ≤ M := by
  unfold futureLaps at h
  rcases List.mem_map.mp h with ⟨i, hi, rfl⟩
  rw [List.mem_range] at hi
  omega

theorem futureLaps_eq_nil {c M : ℤ} (h : M < c) : futureLaps c M = [] := by
  unfold futureLaps
  have : (M + 1 - c).toNat = 0 := by omega
  simp [this]

theorem futureLaps_self (c : ℤ) : futureLaps c c = [c] := by
  unfold futureLaps
  have : (c + 1 - c).toNat = 1 := by omega
  simp [this, List.range_succ]

theorem optimalPitLap0_le (m : FittedModel) (c M : ℤ) :
    optimalPitLap0 m c M ≤ M := by
  unfold optimalPitLap0
  split
  · rcases hfind : (futureLaps c M).find?
        (fun lap => decide (m.base_lap_time + m.degradation_threshold < predictLapTime m lap))
      with _ | lap
    · simp only [hfind]
      exact le_refl M
    · simp only [hfind]
      exact (mem_futureLaps (List.mem_of_find?_eq_some hfind)).2
  · exact le_refl M

theorem predictPitWindow_optimal (m : FittedModel) (c M : ℤ) :
    (predictPitWindow m c M).optimal_pit_lap = max (optimalPitLap0 m c M) (c + 1) := rfl

theorem predictPitWindow_times (m : FittedModel) (c M : ℤ) :
    (predictPitWindow m c M).predicted_lap_times =
      (((futureLaps c M).map (predictLapTime m)).take 10).map pyRound3 := rfl

/-- A concrete model, exactly the result of fitting the spec's scenario
`samples = [(1,90.0),(2,90.5),(3,91.0),(4,91.5),(5,92.0)]` with
`degradation_threshold = 2.0`: the quadratic fit of exactly linear data is
the line `89.5 + 0.5·lap`. -/
def demoModel : FittedModel :=
  { coef_c := 179/2
    coef_b := 1/2
    coef_a := 0
    degradation_threshold := 2
    base_lap_time := 90
    degradation_rate := 1/2
    r_squared := 1
    laps_analyzed := 5
    lap_time_var := 1/2
    is_degrading := true }

theorem fit_demo : fit [1, 2, 3, 4, 5] [90, 90.5, 91, 91.5, 92] 2 = .ok demoModel := by
  norm_num [fit, fitModel, ssRes, ssTot, removeOutliers, listMean, listVar, listMin, quadFit,
    linSlope, MIN_LAPS_REQUIRED, demoModel]

/-- **C1** (amended).  For every fitted model, `optimal_pit_lap` strictly
exceeds `current_stint_lap`; and whenever `current_stint_lap` is strictly
below `max_stint_length`, `optimal_pit_lap` is at most `max_stint_length`.
(The unconditional upper bound of the original claim fails when
`current_stint_lap ≥ max_stint_length`, where the flooring step pushes the
result to `current_stint_lap + 1 > max_stint_length`.) -/
theorem optimal_pit_lap_bounds (m : FittedModel) (current_stint_lap max_stint_length : ℤ) :
    current_stint_lap <
        (predictPitWindow m current_stint_lap max_stint_length).optimal_pit_lap ∧
    (current_stint_lap < max_stint_length →
      (predictPitWindow m current_stint_lap max_stint_length).optimal_pit_lap ≤
        max_stint_length) := by
  rw [predictPitWindow_optimal]
  have hr := le_max_right (optimalPitLap0 m current_stint_lap max_stint_length)
    (current_stint_lap + 1)
  refine ⟨by omega, fun h => ?_⟩
  exact max_le (optimalPitLap0_le m current_stint_lap max_stint_length) (by omega)

/-- Witness for `optimal_pit_lap_bounds` at the concrete fitted model
`demoModel` with `current_stint_lap = 5`, `max_stint_length = 40`. -/
theorem optimal_pit_lap_bounds_witness :
    (5 : ℤ) < (predictPitWindow demoModel 5 40).optimal_pit_lap ∧
    (predictPitWindow demoModel 5 40).optimal_pit_lap ≤ 40 :=
  ⟨(optimal_pit_lap_bounds demoModel 5 40).1,
   (optimal_pit_lap_bounds demoModel 5 40).2 (by norm_num)⟩

/-- **C1** counterexample.  `demoModel` is a successfully fitted model
(`fit_demo`), yet with `current_stint_lap = max_stint_length = 40` the
returned `optimal_pit_lap` is `41`, violating
`optimal_pit_lap ≤ max_stint_length`. -/
theorem optimal_pit_lap_le_max_counterexample :
    fit [1, 2, 3, 4, 5] [90, 90.5, 91, 91.5, 92] 2 = .ok demoModel ∧
    (predictPitWindow demoModel 40 40).optimal_pit_lap = 41 ∧
    ¬ ((predictPitWindow demoModel 40 40).optimal_pit_lap ≤ 40) := by
  refine ⟨fit_demo, ?_, ?_⟩ <;>
    norm_num [predictPitWindow_optimal, optimalPitLap0, futureLaps_self, demoModel,
      predictLapTime]

/-- **C10** (amended).  For every fitted model, if
`current_stint_lap ≥ max_stint_length` then the prediction succeeds with
`optimal_pit_lap = current_stint_lap + 1`, which exceeds
`max_stint_length`; and `predicted_lap_times` is empty exactly when
`current_stint_lap > max_stint_length` (at `current_stint_lap =
max_stint_length` the future-lap range still holds the single lap
`max_stint_length`, so one predicted time is returned). -/
theorem predictPitWindow_past_max (m : FittedModel) (current_stint_lap max_stint_length : ℤ)
    (h : max_stint_length ≤ current_stint_lap) :
    (predictPitWindow m current_stint_lap max_stint_length).optimal_pit_lap =
        current_stint_lap + 1 ∧
    max_stint_length <
        (predictPitWindow m current_stint_lap max_stint_length).optimal_pit_lap ∧
    ((predictPitWindow m current_stint_lap max_stint_length).predicted_lap_times = [] ↔
        max_stint_length < current_stint_lap) := by
  have h0 := optimalPitLap0_le m current_stint_lap max_stint_length
  have hopt : (predictPitWindow m current_stint_lap max_stint_length).optimal_pit_lap =
      current_stint_lap + 1 := by
    rw [predictPitWindow_optimal]
    exact max_eq_right (by omega)
  refine ⟨hopt, by omega, ?_⟩
  rcases eq_or_lt_of_le h with rfl | hlt
  · rw [predictPitWindow_times, futureLaps_self]
    simp
  · rw [predictPitWindow_times, futureLaps_eq_nil hlt]
    simpa using hlt

/-- Witness for `predictPitWindow_past_max` at `demoModel`,
`current_stint_lap = 41`, `max_stint_length = 40`. -/
theorem predictPitWindow_past_max_witness :
    (predictPitWindow demoModel 41 40).optimal_pit_lap = 42 ∧
    (40 : ℤ) < (predictPitWindow demoModel 41 40).optimal_pit_lap ∧
    ((predictPitWindow demoModel 41 40).predicted_lap_times = [] ↔ (40 : ℤ) < 41) :=
  predictPitWindow_past_max demoModel 41 40 (by norm_num)

theorem futureLaps_cons {c M : ℤ} (h : c ≤ M) :
    futureLaps c M = c :: futureLaps (c + 1) M := by
  unfold futureLaps
  have h1 : (M + 1 - c).toNat = (M + 1 - (c + 1)).toNat + 1 := by omega
  rw [h1, List.range_succ_eq_map, List.map_cons, List.map_map]
  refine congrArg₂ _ (by simp) (List.map_congr_left fun i _ => ?_)
  simp only [Function.comp]
  push_cast
  ring

/-- In the spec's scenario the quadratic prediction `89.5 + 0.5·lap` first
strictly exceeds `base_lap_time + threshold = 92` at lap `6`. -/
theorem demo_threshold_scan :
    (futureLaps 5 40).find?
      (fun lap => decide (demoModel.base_lap_time + demoModel.degradation_threshold <
        predictLapTime demoModel lap)) = some 6 := by
  rw [futureLaps_cons (by norm_num), futureLaps_cons (by norm_num)]
  rw [List.find?_cons_of_neg _ (by norm_num [demoModel, predictLapTime]),
    List.find?_cons_of_pos _ (by norm_num [demoModel, predictLapTime])]
  norm_num

theorem demo_optimal_six : (predictPitWindow demoModel 5 40).optimal_pit_lap = 6 := by
  rw [predictPitWindow_optimal]
  have h0 : optimalPitLap0 demoModel 5 40 = 6 := by
    unfold optimalPitLap0
    rw [if_pos (by norm_num [demoModel])]
    simp only [demo_threshold_scan]
  rw [h0]
  norm_num

/-- **C3** (amended).  In the spec's scenario
(`samples = [(1,90.0),(2,90.5),(3,91.0),(4,91.5),(5,92.0)]`,
`degradation_threshold = 2.0`, `current_stint_lap = 5`,
`max_stint_length = 40`) the fit yields `degradation_rate = 0.5` and
`is_degrading = true` as claimed, but `optimal_pit_lap = 6`: the quadratic
prediction `89.5 + 0.5·lap` first strictly exceeds
`base_lap_time + 2.0 = 92.0` at lap `6`, not near lap `9`. -/
theorem scenario_prediction :
    fit [1, 2, 3, 4, 5] [90, 90.5, 91, 91.5, 92] 2 = .ok demoModel ∧
    demoModel.degradation_rate = 1/2 ∧
    demoModel.is_degrading = true ∧
    demoModel.base_lap_time + demoModel.degradation_threshold = 92 ∧
    (futureLaps 5 40).find?
      (fun lap => decide (demoModel.base_lap_time + demoModel.degradation_threshold <
        predictLapTime demoModel lap)) = some 6 ∧
    (predictPitWindow demoModel 5 40).optimal_pit_lap = 6 :=
  ⟨fit_demo, by norm_num [demoModel], rfl, by norm_num [demoModel], demo_threshold_scan,
    demo_optimal_six⟩

/-- **C3** counterexample.  The scenario's `optimal_pit_lap` is `6`, which
is not approximately `9` (it differs from `9`). -/
theorem scenario_optimal_pit_lap_counterexample :
    fit [1, 2, 3, 4, 5] [90, 90.5, 91, 91.5, 92] 2 = .ok demoModel ∧
    (predictPitWindow demoModel 5 40).optimal_pit_lap = 6 ∧
    (predictPitWindow demoModel 5 40).optimal_pit_lap ≠ 9 :=
  ⟨fit_demo, demo_optimal_six, by rw [demo_optimal_six]; norm_num⟩

theorem clamp01_eq_self {x : ℚ} (h0 : 0 ≤ x) (h1 : x ≤ 1) : max 0 (min 1 x) = x := by
  rw [min_eq_right h1, max_eq_right h0]

/-- **C4**.  For fitted quantities (`0 ≤ r_squared ≤ 1` as `fit` clamps it,
a nonnegative standard deviation and baseline), `_calculate_confidence`
computes exactly the spec's weighted blend with the 0.7 penalty for
`|degradation_rate| > 0.3`; and for arbitrary (even extreme) quantities the
result always lies in `[0, 1]`. -/
theorem calcConfidence_spec (r_squared : ℚ) (laps_analyzed : ℕ)
    (lap_time_std base_lap_time degradation_rate : ℚ)
    (h0 : 0 ≤ r_squared) (h1 : r_squared ≤ 1) (hstd : 0 ≤ lap_time_std)
    (hbase : 0 ≤ base_lap_time) :
    calcConfidence r_squared laps_analyzed lap_time_std base_lap_time degradation_rate =
      specConfidence r_squared laps_analyzed lap_time_std base_lap_time degradation_rate ∧
    ∀ (r2 std base rate : ℚ) (laps : ℕ),
      0 ≤ calcConfidence r2 laps std base rate ∧ calcConfidence r2 laps std base rate ≤ 1 := by
  have hbounds : ∀ (r2 std base rate : ℚ) (laps : ℕ),
      0 ≤ calcConfidence r2 laps std base rate ∧ calcConfidence r2 laps std base rate ≤ 1 := by
    intro r2 std base rate laps
    unfold calcConfidence
    exact ⟨le_max_left 0 _, max_le zero_le_one (min_le_left 1 _)⟩
  refine ⟨?_, hbounds⟩
  have hA : max 0 r_squared = r_squared := max_eq_right h0
  have hL0 : (0:ℚ) ≤ min ((laps_analyzed : ℚ) / 15) 1 := le_min (by positivity) zero_le_one
  have hL1 : min ((laps_analyzed : ℚ) / 15) 1 ≤ 1 := min_le_right _ _
  have h20 : (0:ℚ) < 1/20 := by norm_num
  simp only [calcConfidence, specConfidence]
  rcases eq_or_lt_of_le hbase with hb | hb
  · have hb' : base_lap_time = 0 := hb.symm
    subst hb'
    rw [if_neg (lt_irrefl 0), if_pos rfl, hA]
    split_ifs with hr
    · rw [clamp01_eq_self (by nlinarith) (by nlinarith)]
      ring
    · rw [clamp01_eq_self (by nlinarith) (by nlinarith)]
      ring
  · have hN0 : (0:ℚ) ≤ min (lap_time_std / base_lap_time) (1/20) / (1/20) :=
      div_nonneg (le_min (div_nonneg hstd (le_of_lt hb)) (le_of_lt h20)) (le_of_lt h20)
    have hN1 : min (lap_time_std / base_lap_time) (1/20) / (1/20) ≤ 1 := by
      rw [div_le_one h20]
      exact min_le_right _ _
    rw [if_pos hb, if_neg (by linarith : ¬ base_lap_time = 0), hA]
    split_ifs with hr
    · rw [clamp01_eq_self (by nlinarith) (by nlinarith)]
      ring
    · rw [clamp01_eq_self (by nlinarith) (by nlinarith)]
      ring

/-- Witness for `calcConfidence_spec` at `r² = 1/2`, `laps = 10`,
`std = 1`, `base = 100`, `rate = 1/10`. -/
theorem calcConfidence_spec_witness :
    calcConfidence (1/2) 10 1 100 (1/10) = specConfidence (1/2) 10 1 100 (1/10) ∧
    ∀ (r2 std base rate : ℚ) (laps : ℕ),
      0 ≤ calcConfidence r2 laps std base rate ∧ calcConfidence r2 laps std base rate ≤ 1 :=
  calcConfidence_spec (1/2) 10 1 100 (1/10) (by norm_num) (by norm_num) (by norm_num)
    (by norm_num)

/-- **C8** (amended).  For every request with at least `MIN_LAPS_REQUIRED`
laps, the adapter's pre-filter keeps exactly the samples whose duration is
*strictly below* `1.2 ×` the (upper) median duration — a sample whose
duration equals `1.2 ×` the median is removed, not kept — and falls back to
the unfiltered sample set whenever the filter would leave fewer than
`MIN_LAPS_REQUIRED` samples. -/
theorem preFilter_spec (samples : List Sample) (_h5 : MIN_LAPS_REQUIRED ≤ samples.length) :
    (MIN_LAPS_REQUIRED ≤ (samples.filter fun p =>
        p.2 < medianDuration (samples.map Prod.snd) * (6/5)).length →
      preFilter samples = samples.filter fun p =>
        p.2 < medianDuration (samples.map Prod.snd) * (6/5)) ∧
    ((samples.filter fun p =>
        p.2 < medianDuration (samples.map Prod.snd) * (6/5)).length < MIN_LAPS_REQUIRED →
      preFilter samples = samples) := by
  unfold preFilter
  constructor
  · intro h
    rw [if_neg (by omega)]
  · intro h
    rw [if_pos h]

/-- Witness for `preFilter_spec` on six laps `[10,10,10,10,10,12]` (the
filter keeps five samples, so no fallback). -/
theorem preFilter_spec_witness :
    (MIN_LAPS_REQUIRED ≤ ([((1:ℤ),(10:ℚ)), (2,10), (3,10), (4,10), (5,10), (6,12)].filter
        fun p => p.2 < medianDuration ([((1:ℤ),(10:ℚ)), (2,10), (3,10), (4,10), (5,10),
          (6,12)].map Prod.snd) * (6/5)).length →
      preFilter [((1:ℤ),(10:ℚ)), (2,10), (3,10), (4,10), (5,10), (6,12)] =
        [((1:ℤ),(10:ℚ)), (2,10), (3,10), (4,10), (5,10), (6,12)].filter
          fun p => p.2 < medianDuration ([((1:ℤ),(10:ℚ)), (2,10), (3,10), (4,10), (5,10),
            (6,12)].map Prod.snd) * (6/5)) ∧
    (([((1:ℤ),(10:ℚ)), (2,10), (3,10), (4,10), (5,10), (6,12)].filter
        fun p => p.2 < medianDuration ([((1:ℤ),(10:ℚ)), (2,10), (3,10), (4,10), (5,10),
          (6,12)].map Prod.snd) * (6/5)).length < MIN_LAPS_REQUIRED →
      preFilter [((1:ℤ),(10:ℚ)), (2,10), (3,10), (4,10), (5,10), (6,12)] =
        [((1:ℤ),(10:ℚ)), (2,10), (3,10), (4,10), (5,10), (6,12)]) :=
  preFilter_spec _ (by norm_num [MIN_LAPS_REQUIRED])

/-- **C8** counterexample.  On durations `[10,10,10,10,10,12]` the median
is `10` and the last sample's duration `12` equals `1.2 × 10` exactly — it
does not *exceed* `1.2 ×` the median, so the claim says it is kept — yet
the pre-filter removes it (the code's comparison is strict `<`). -/
theorem preFilter_boundary_counterexample :
    medianDuration [10, 10, 10, 10, 10, 12] = 10 ∧
    ¬ ((10:ℚ) * (6/5) < 12) ∧
    preFilter [((1:ℤ),(10:ℚ)), (2,10), (3,10), (4,10), (5,10), (6,12)] =
      [((1:ℤ),(10:ℚ)), (2,10), (3,10), (4,10), (5,10)] ∧
    ((6:ℤ), (12:ℚ)) ∉ preFilter
      [((1:ℤ),(10:ℚ)), (2,10), (3,10), (4,10), (5,10), (6,12)] := by
  have hmed : medianDuration [10, 10, 10, 10, 10, 12] = 10 := by
    norm_num [medianDuration]
  have hpre : preFilter [((1:ℤ),(10:ℚ)), (2,10), (3,10), (4,10), (5,10), (6,12)] =
      [((1:ℤ),(10:ℚ)), (2,10), (3,10), (4,10), (5,10)] := by
    norm_num [preFilter, MIN_LAPS_REQUIRED, hmed]
  refine ⟨hmed, by norm_num, hpre, ?_⟩
  rw [hpre]
  norm_num

/-- Picking the entries whose index appears among the first `k` of a
permutation of an indexed list retains at least `k` entries. -/
theorem length_filter_mem_take {β : Type} (l sortedl : List (ℕ × β))
    (hperm : sortedl.Perm l) (k : ℕ) (hk : k ≤ l.length) :
    k ≤ (l.filter fun a => a.1 ∈ (sortedl.take k).map Prod.fst).length := by
  rw [← List.countP_eq_length_filter]
  have hcount : sortedl.countP (fun a => decide (a.1 ∈ (sortedl.take k).map Prod.fst)) =
      l.countP (fun a => decide (a.1 ∈ (sortedl.take k).map Prod.fst)) :=
    hperm.countP_eq _
  rw [← hcount]
  have htk : (sortedl.take k).length = k := by
    rw [List.length_take, hperm.length_eq]
    omega
  have htake : (sortedl.take k).countP
      (fun a => decide (a.1 ∈ (sortedl.take k).map Prod.fst)) = k := by
    rw [List.countP_eq_length.mpr, htk]
    intro a ha
    simpa using List.mem_map_of_mem Prod.fst ha
  have hsplit : sortedl.countP (fun a => decide (a.1 ∈ (sortedl.take k).map Prod.fst)) =
      (sortedl.take k).countP (fun a => decide (a.1 ∈ (sortedl.take k).map Prod.fst)) +
      (sortedl.drop k).countP (fun a => decide (a.1 ∈ (sortedl.take k).map Prod.fst)) := by
    rw [← List.countP_append, List.take_append_drop]
  omega

theorem fiveClosest_length_ge (dev : Sample → ℚ) (k : ℕ) (s : List Sample)
    (hk : k ≤ s.length) : k ≤ (fiveClosest dev k s).length := by
  unfold fiveClosest
  rw [List.length_map]
  refine length_filter_mem_take _ _ (List.perm_insertionSort _ _) _ ?_
  rw [List.enum_length]
  exact hk

theorem fiveClosest_length_le (dev : Sample → ℚ) (k : ℕ) (s : List Sample) :
    (fiveClosest dev k s).length ≤ s.length := by
  unfold fiveClosest
  rw [List.length_map]
  calc ((s.enum.filter _).length) ≤ s.enum.length := List.length_filter_le _ _
    _ = s.length := List.enum_length

/-- The outlier-removal fallback guarantees at least `MIN_LAPS_REQUIRED`
retained samples whenever at least that many were supplied. -/
theorem removeOutliers_length_lower (s : List Sample)
    (h5 : MIN_LAPS_REQUIRED ≤ s.length) :
    MIN_LAPS_REQUIRED ≤ (removeOutliers s).length := by
  simp only [removeOutliers]
  split_ifs with hv hk
  · exact h5
  · exact fiveClosest_length_ge _ _ _ h5
  · omega

/-- Outlier removal never returns more samples than it was given. -/
theorem removeOutliers_length_upper (s : List Sample) :
    (removeOutliers s).length ≤ s.length := by
  simp only [removeOutliers]
  split_ifs with hv hk
  · exact le_refl _
  · exact fiveClosest_length_le _ _ _
  · exact List.length_filter_le _ _

/-- **C2** (amended).  Because the outlier-removal fallback always retains
at least `MIN_LAPS_REQUIRED` samples, `fit` can never fail with
`InsufficientCleanData` on an input of at least `MIN_LAPS_REQUIRED`
samples: the check behind that error is unreachable. -/
theorem fit_never_insufficientCleanData (stint_laps : List ℤ) (lap_durations : List ℚ)
    (t : ℚ) (h1 : MIN_LAPS_REQUIRED ≤ stint_laps.length)
    (h2 : MIN_LAPS_REQUIRED ≤ lap_durations.length) :
    fit stint_laps lap_durations t ≠ .error .insufficientCleanData := by
  have hz : MIN_LAPS_REQUIRED ≤ (stint_laps.zip lap_durations).length := by
    rw [List.length_zip]
    omega
  have hlow := removeOutliers_length_lower (stint_laps.zip lap_durations) hz
  simp only [fit]
  rw [if_neg (by omega :
    ¬ (stint_laps.length < MIN_LAPS_REQUIRED ∨ lap_durations.length < MIN_LAPS_REQUIRED))]
  by_cases hlen : stint_laps.length ≠ lap_durations.length
  · rw [if_pos hlen]
    simp
  · rw [if_neg hlen, if_neg (by omega :
      ¬ (removeOutliers (stint_laps.zip lap_durations)).length < MIN_LAPS_REQUIRED)]
    simp

/-- Witness for `fit_never_insufficientCleanData` at a concrete 5-sample
input. -/
theorem fit_never_insufficientCleanData_witness :
    fit [1, 2, 3, 4, 5] [96, 91, 91, 91, 91] 2 ≠ .error .insufficientCleanData :=
  fit_never_insufficientCleanData [1, 2, 3, 4, 5] [96, 91, 91, 91, 91] 2
    (by norm_num [MIN_LAPS_REQUIRED]) (by norm_num [MIN_LAPS_REQUIRED])

/-- **C2** counterexample.  On `durations = [96,91,91,91,91]` (five
samples) the 2-standard-deviation mask retains only four samples — yet
`fit` succeeds rather than failing with `InsufficientCleanData`, because
the fallback keeps the five samples closest to the mean.  So no input of
`≥ 5` samples makes `fit` raise `InsufficientCleanData`. -/
theorem insufficientCleanData_counterexample :
    ([((1:ℤ),(96:ℚ)), (2,91), (3,91), (4,91), (5,91)].filter fun p =>
        (p.2 - listMean ([((1:ℤ),(96:ℚ)), (2,91), (3,91), (4,91), (5,91)].map Prod.snd))^2 <
          4 * listVar ([((1:ℤ),(96:ℚ)), (2,91), (3,91), (4,91), (5,91)].map Prod.snd)).length
      = 4 ∧
    4 < MIN_LAPS_REQUIRED ∧
    (fit [1, 2, 3, 4, 5] [96, 91, 91, 91, 91] 2).isOk = true := by
  have hro : removeOutliers [((1:ℤ),(96:ℚ)), (2,91), (3,91), (4,91), (5,91)] =
      [((1:ℤ),(96:ℚ)), (2,91), (3,91), (4,91), (5,91)] := by
    norm_num [removeOutliers, fiveClosest, listMean, listVar, MIN_LAPS_REQUIRED, List.enum,
      List.enumFrom, List.insertionSort, List.orderedInsert]
  refine ⟨?_, by norm_num [MIN_LAPS_REQUIRED], ?_⟩
  · norm_num [listMean, listVar]
  · simp only [fit]
    rw [if_neg (by norm_num [MIN_LAPS_REQUIRED]), if_neg (by norm_num)]
    have hzip : List.zip [(1:ℤ), 2, 3, 4, 5] [(96:ℚ), 91, 91, 91, 91] =
        [((1:ℤ),(96:ℚ)), (2,91), (3,91), (4,91), (5,91)] := by
      norm_num [List.zip]
    rw [hzip, hro, if_neg (by norm_num [MIN_LAPS_REQUIRED])]
    rfl

/-- Inversion: a successful `fit` returns exactly the model assembled by
`fitModel` from the outlier-cleaned samples. -/
theorem fit_ok_inv {stint_laps : List ℤ} {lap_durations : List ℚ} {t : ℚ}
    {m : FittedModel} (hok : fit stint_laps lap_durations t = .ok m) :
    m = fitModel (removeOutliers (stint_laps.zip lap_durations)) t := by
  simp only [fit] at hok
  split_ifs at hok
  exact (Except.ok.inj hok).symm

/-- The fallback keeps exactly `k` samples, and every kept sample is at
least as close (by the deviation measure) as every dropped one. -/
theorem fiveClosest_spec (dev : Sample → ℚ) (k : ℕ) (s : List Sample)
    (hk : k ≤ s.length) :
    (fiveClosest dev k s).length = k ∧
    ∀ x ∈ fiveClosest dev k s, ∀ y ∈ s, y ∉ fiveClosest dev k s → dev x ≤ dev y := by
  haveI hTot : IsTotal (ℕ × Sample) (fun a b => dev a.2 ≤ dev b.2) :=
    ⟨fun a b => le_total _ _⟩
  haveI hTrans : IsTrans (ℕ × Sample) (fun a b => dev a.2 ≤ dev b.2) :=
    ⟨fun _ _ _ hab hbc => le_trans hab hbc⟩
  set SI := s.enum.insertionSort (fun a b => dev a.2 ≤ dev b.2) with hSIdef
  have hperm : SI.Perm s.enum := List.perm_insertionSort _ s.enum
  have hsort : SI.Sorted (fun a b => dev a.2 ≤ dev b.2) :=
    List.sorted_insertionSort _ s.enum
  set chosen := (SI.take k).map Prod.fst with hchosendef
  have hfc : fiveClosest dev k s = (s.enum.filter fun a => a.1 ∈ chosen).map Prod.snd := rfl
  have hSIlen : SI.length = s.length := by
    rw [hperm.length_eq, List.enum_length]
  have htk : (SI.take k).length = k := by
    rw [List.length_take]
    omega
  have hnod : (SI.map Prod.fst).Nodup :=
    ((hperm.map Prod.fst).nodup_iff).mpr (List.nodup_enum_map_fst s)
  have hdisj : List.Disjoint chosen ((SI.drop k).map Prod.fst) := by
    apply List.disjoint_of_nodup_append
    rw [hchosendef, ← List.map_append, List.take_append_drop]
    exact hnod
  have hmem : ∀ a, a ∈ SI → (a.1 ∈ chosen ↔ a ∈ SI.take k) := by
    intro a ha
    constructor
    · intro hc
      have hsplit : a ∈ SI.take k ++ SI.drop k := by
        rw [List.take_append_drop]
        exact ha
      rcases List.mem_append.mp hsplit with h1 | h2
      · exact h1
      · exact absurd (List.mem_map_of_mem Prod.fst h2) (hdisj hc)
    · intro ht
      rw [hchosendef]
      exact List.mem_map_of_mem Prod.fst ht
  have hcount : (s.enum.filter fun a => a.1 ∈ chosen).length = k := by
    rw [← List.countP_eq_length_filter, ← hperm.countP_eq]
    have e1 : SI.countP (fun a => decide (a.1 ∈ chosen)) =
        (SI.take k).countP (fun a => decide (a.1 ∈ chosen)) +
        (SI.drop k).countP (fun a => decide (a.1 ∈ chosen)) := by
      rw [← List.countP_append, List.take_append_drop]
    have e2 : (SI.take k).countP (fun a => decide (a.1 ∈ chosen)) = k := by
      rw [List.countP_eq_length.mpr, htk]
      intro a ha
      rw [decide_eq_true_eq, hchosendef]
      exact List.mem_map_of_mem Prod.fst ha
    have e3 : (SI.drop k).countP (fun a => decide (a.1 ∈ chosen)) = 0 := by
      rw [List.countP_eq_zero]
      intro a ha
      simp only [decide_eq_true_eq]
      intro hc
      exact hdisj hc (List.mem_map_of_mem Prod.fst ha)
    omega
  refine ⟨by rw [hfc, List.length_map, hcount], ?_⟩
  intro x hx y hy hyn
  rw [hfc] at hx
  rcases List.mem_map.mp hx with ⟨a, haf, rfl⟩
  have ha : a ∈ s.enum := List.mem_of_mem_filter haf
  have hachosen : a.1 ∈ chosen := by simpa using List.of_mem_filter haf
  have haTake : a ∈ SI.take k := (hmem a (hperm.mem_iff.mpr ha)).mp hachosen
  rcases List.getElem_of_mem hy with ⟨i, hi, rfl⟩
  have hb : ((i, s[i]) : ℕ × Sample) ∈ s.enum := by
    rw [List.mem_enum_iff_getElem?]
    simp [hi]
  have hbSI : ((i, s[i]) : ℕ × Sample) ∈ SI := hperm.mem_iff.mpr hb
  have hbchosen : (i : ℕ) ∉ chosen := by
    intro hc
    apply hyn
    rw [hfc]
    exact List.mem_map_of_mem Prod.snd (List.mem_filter.mpr ⟨hb, by simpa using hc⟩)
  have hbDrop : ((i, s[i]) : ℕ × Sample) ∈ SI.drop k := by
    have hsplit : ((i, s[i]) : ℕ × Sample) ∈ SI.take k ++ SI.drop k := by
      rw [List.take_append_drop]
      exact hbSI
    rcases List.mem_append.mp hsplit with h1 | h2
    · exact absurd ((hmem _ hbSI).mpr h1) hbchosen
    · exact h2
  exact hsort.rel_of_mem_take_of_mem_drop haTake hbDrop

/-- **C7**.  For every `fit` input of at least `MIN_LAPS_REQUIRED` samples:
outlier removal keeps all samples when the variance is zero; otherwise it
removes exactly the samples with `|duration − mean| ≥ 2·std` (expressed on
squares); when fewer than `MIN_LAPS_REQUIRED` would survive it instead
keeps `MIN_LAPS_REQUIRED` samples, each at least as close to the mean as
every dropped sample; and whenever `fit` succeeds,
`MIN_LAPS_REQUIRED ≤ laps_analyzed ≤ len(samples)`. -/
theorem outlier_removal_spec (stint_laps : List ℤ) (lap_durations : List ℚ) (t : ℚ)
    (hlen : stint_laps.length = lap_durations.length)
    (h5 : MIN_LAPS_REQUIRED ≤ lap_durations.length) :
    (listVar ((stint_laps.zip lap_durations).map Prod.snd) = 0 →
      removeOutliers (stint_laps.zip lap_durations) = stint_laps.zip lap_durations) ∧
    (listVar ((stint_laps.zip lap_durations).map Prod.snd) ≠ 0 →
      MIN_LAPS_REQUIRED ≤ ((stint_laps.zip lap_durations).filter fun p =>
          (p.2 - listMean ((stint_laps.zip lap_durations).map Prod.snd)) ^ 2 <
            4 * listVar ((stint_laps.zip lap_durations).map Prod.snd)).length →
      removeOutliers (stint_laps.zip lap_durations) =
        (stint_laps.zip lap_durations).filter fun p =>
          (p.2 - listMean ((stint_laps.zip lap_durations).map Prod.snd)) ^ 2 <
            4 * listVar ((stint_laps.zip lap_durations).map Prod.snd)) ∧
    (listVar ((stint_laps.zip lap_durations).map Prod.snd) ≠ 0 →
      ((stint_laps.zip lap_durations).filter fun p =>
          (p.2 - listMean ((stint_laps.zip lap_durations).map Prod.snd)) ^ 2 <
            4 * listVar ((stint_laps.zip lap_durations).map Prod.snd)).length <
        MIN_LAPS_REQUIRED →
      (removeOutliers (stint_laps.zip lap_durations)).length = MIN_LAPS_REQUIRED ∧
      ∀ x ∈ removeOutliers (stint_laps.zip lap_durations),
        ∀ y ∈ stint_laps.zip lap_durations,
          y ∉ removeOutliers (stint_laps.zip lap_durations) →
          (x.2 - listMean ((stint_laps.zip lap_durations).map Prod.snd)) ^ 2 ≤
            (y.2 - listMean ((stint_laps.zip lap_durations).map Prod.snd)) ^ 2) ∧
    (∀ m, fit stint_laps lap_durations t = .ok m →
      MIN_LAPS_REQUIRED ≤ m.laps_analyzed ∧ m.laps_analyzed ≤ lap_durations.length) := by
  have hzlen : (stint_laps.zip lap_durations).length = lap_durations.length := by
    rw [List.length_zip]
    omega
  refine ⟨fun hv => ?_, fun hv hge => ?_, fun hv hlt => ?_, fun m hok => ?_⟩
  · simp only [removeOutliers]
    rw [if_pos hv]
  · simp only [removeOutliers]
    rw [if_neg hv, if_neg (not_lt.mpr hge)]
  · have hro : removeOutliers (stint_laps.zip lap_durations) =
        fiveClosest (fun p =>
            (p.2 - listMean ((stint_laps.zip lap_durations).map Prod.snd)) ^ 2)
          MIN_LAPS_REQUIRED (stint_laps.zip lap_durations) := by
      simp only [removeOutliers]
      rw [if_neg hv, if_pos hlt]
    rw [hro]
    exact fiveClosest_spec _ _ _ (by omega)
  · have hup := removeOutliers_length_upper (stint_laps.zip lap_durations)
    have hlow := removeOutliers_length_lower (stint_laps.zip lap_durations) (by omega)
    have hla : m.laps_analyzed = (removeOutliers (stint_laps.zip lap_durations)).length := by
      rw [fit_ok_inv hok]
      rfl
    omega

/-- Witness for `outlier_removal_spec` on the spec's scenario input. -/
theorem outlier_removal_spec_witness :
    (listVar (([(1:ℤ), 2, 3, 4, 5].zip [(90:ℚ), 90.5, 91, 91.5, 92]).map Prod.snd) = 0 →
      removeOutliers ([(1:ℤ), 2, 3, 4, 5].zip [(90:ℚ), 90.5, 91, 91.5, 92]) =
        [(1:ℤ), 2, 3, 4, 5].zip [(90:ℚ), 90.5, 91, 91.5, 92]) ∧
    (listVar (([(1:ℤ), 2, 3, 4, 5].zip [(90:ℚ), 90.5, 91, 91.5, 92]).map Prod.snd) ≠ 0 →
      MIN_LAPS_REQUIRED ≤ (([(1:ℤ), 2, 3, 4, 5].zip [(90:ℚ), 90.5, 91, 91.5, 92]).filter
          fun p => (p.2 - listMean (([(1:ℤ), 2, 3, 4, 5].zip
            [(90:ℚ), 90.5, 91, 91.5, 92]).map Prod.snd)) ^ 2 <
              4 * listVar (([(1:ℤ), 2, 3, 4, 5].zip
                [(90:ℚ), 90.5, 91, 91.5, 92]).map Prod.snd)).length →
      removeOutliers ([(1:ℤ), 2, 3, 4, 5].zip [(90:ℚ), 90.5, 91, 91.5, 92]) =
        ([(1:ℤ), 2, 3, 4, 5].zip [(90:ℚ), 90.5, 91, 91.5, 92]).filter fun p =>
          (p.2 - listMean (([(1:ℤ), 2, 3, 4, 5].zip
            [(90:ℚ), 90.5, 91, 91.5, 92]).map Prod.snd)) ^ 2 <
              4 * listVar (([(1:ℤ), 2, 3, 4, 5].zip
                [(90:ℚ), 90.5, 91, 91.5, 92]).map Prod.snd)) ∧
    (listVar (([(1:ℤ), 2, 3, 4, 5].zip [(90:ℚ), 90.5, 91, 91.5, 92]).map Prod.snd) ≠ 0 →
      (([(1:ℤ), 2, 3, 4, 5].zip [(90:ℚ), 90.5, 91, 91.5, 92]).filter fun p =>
          (p.2 - listMean (([(1:ℤ), 2, 3, 4, 5].zip
            [(90:ℚ), 90.5, 91, 91.5, 92]).map Prod.snd)) ^ 2 <
              4 * listVar (([(1:ℤ), 2, 3, 4, 5].zip
                [(90:ℚ), 90.5, 91, 91.5, 92]).map Prod.snd)).length < MIN_LAPS_REQUIRED →
      (removeOutliers ([(1:ℤ), 2, 3, 4, 5].zip [(90:ℚ), 90.5, 91, 91.5, 92])).length =
        MIN_LAPS_REQUIRED ∧
      ∀ x ∈ removeOutliers ([(1:ℤ), 2, 3, 4, 5].zip [(90:ℚ), 90.5, 91, 91.5, 92]),
        ∀ y ∈ [(1:ℤ), 2, 3, 4, 5].zip [(90:ℚ), 90.5, 91, 91.5, 92],
          y ∉ removeOutliers ([(1:ℤ), 2, 3, 4, 5].zip [(90:ℚ), 90.5, 91, 91.5, 92]) →
          (x.2 - listMean (([(1:ℤ), 2, 3, 4, 5].zip
            [(90:ℚ), 90.5, 91, 91.5, 92]).map Prod.snd)) ^ 2 ≤
              (y.2 - listMean (([(1:ℤ), 2, 3, 4, 5].zip
                [(90:ℚ), 90.5, 91, 91.5, 92]).map Prod.snd)) ^ 2) ∧
    (∀ m, fit [(1:ℤ), 2, 3, 4, 5] [(90:ℚ), 90.5, 91, 91.5, 92] 2 = .ok m →
      MIN_LAPS_REQUIRED ≤ m.laps_analyzed ∧
      m.laps_analyzed ≤ [(90:ℚ), 90.5, 91, 91.5, 92].length) :=
  outlier_removal_spec [1, 2, 3, 4, 5] [90, 90.5, 91, 91.5, 92] 2 (by norm_num)
    (by norm_num [MIN_LAPS_REQUIRED])

/-- When every retained duration is the same value, the total sum of
squares vanishes. -/
theorem ssTot_eq_zero_of_const (cleaned : List Sample)
    (hall : ∀ y ∈ cleaned.map Prod.snd, ∀ z ∈ cleaned.map Prod.snd, y = z) :
    ssTot cleaned = 0 := by
  unfold ssTot
  have h0 : ∀ x ∈ (cleaned.map Prod.snd).map
      (fun y => (y - listMean (cleaned.map Prod.snd)) ^ 2), x = 0 := by
    intro x hx
    rcases List.mem_map.mp hx with ⟨y, hy, rfl⟩
    have hlen0 : ((cleaned.map Prod.snd).length : ℚ) ≠ 0 := by
      have : cleaned.map Prod.snd ≠ [] := by
        intro hnil
        rw [hnil] at hy
        exact absurd hy (List.not_mem_nil y)
      simpa [List.length_eq_zero] using this
    have hmean : listMean (cleaned.map Prod.snd) = y := by
      unfold listMean
      rw [List.sum_eq_card_nsmul (cleaned.map Prod.snd) y
        (fun z hz => hall z hz y hy), nsmul_eq_mul]
      exact mul_div_cancel_left₀ y hlen0
    rw [hmean]
    ring
  rw [List.sum_eq_card_nsmul _ 0 h0, smul_zero]

/-- **C9**.  For every successful fit, `r_squared` is
`1 − SS_res/SS_tot` computed from the quadratic fit over the retained
samples and clamped to `[0,1]` (so it always lies in `[0,1]`); and when all
retained durations are identical (`SS_tot = 0`), `r_squared = 0`. -/
theorem r_squared_spec (stint_laps : List ℤ) (lap_durations : List ℚ) (t : ℚ)
    (m : FittedModel) (hok : fit stint_laps lap_durations t = .ok m) :
    (0 ≤ m.r_squared ∧ m.r_squared ≤ 1) ∧
    (0 < ssTot (removeOutliers (stint_laps.zip lap_durations)) →
      m.r_squared = max 0 (min 1
        (1 - ssRes (removeOutliers (stint_laps.zip lap_durations)) /
          ssTot (removeOutliers (stint_laps.zip lap_durations))))) ∧
    ((∀ y ∈ (removeOutliers (stint_laps.zip lap_durations)).map Prod.snd,
        ∀ z ∈ (removeOutliers (stint_laps.zip lap_durations)).map Prod.snd, y = z) →
      m.r_squared = 0) := by
  have hm := fit_ok_inv hok
  subst hm
  have hr : (fitModel (removeOutliers (stint_laps.zip lap_durations)) t).r_squared =
      max 0 (min 1 (if ssTot (removeOutliers (stint_laps.zip lap_durations)) > 0 then
        1 - ssRes (removeOutliers (stint_laps.zip lap_durations)) /
          ssTot (removeOutliers (stint_laps.zip lap_durations)) else 0)) := rfl
  refine ⟨⟨by rw [hr]; exact le_max_left 0 _,
    by rw [hr]; exact max_le zero_le_one (min_le_left 1 _)⟩, fun h => ?_, fun hall => ?_⟩
  · rw [hr, if_pos h]
  · rw [hr, ssTot_eq_zero_of_const _ hall]
    norm_num

/-- Witness for `r_squared_spec` at the spec's scenario input, whose fit is
`demoModel`. -/
theorem r_squared_spec_witness :
    (0 ≤ demoModel.r_squared ∧ demoModel.r_squared ≤ 1) ∧
    (0 < ssTot (removeOutliers ([(1:ℤ), 2, 3, 4, 5].zip [(90:ℚ), 90.5, 91, 91.5, 92])) →
      demoModel.r_squared = max 0 (min 1
        (1 - ssRes (removeOutliers ([(1:ℤ), 2, 3, 4, 5].zip [(90:ℚ), 90.5, 91, 91.5, 92])) /
          ssTot (removeOutliers ([(1:ℤ), 2, 3, 4, 5].zip [(90:ℚ), 90.5, 91, 91.5, 92]))))) ∧
    ((∀ y ∈ (removeOutliers ([(1:ℤ), 2, 3, 4, 5].zip
        [(90:ℚ), 90.5, 91, 91.5, 92])).map Prod.snd,
        ∀ z ∈ (removeOutliers ([(1:ℤ), 2, 3, 4, 5].zip
          [(90:ℚ), 90.5, 91, 91.5, 92])).map Prod.snd, y = z) →
      demoModel.r_squared = 0) :=
  r_squared_spec [1, 2, 3, 4, 5] [90, 90.5, 91, 91.5, 92] 2 demoModel fit_demo

/-- **C10** counterexample.  At `current_stint_lap = max_stint_length = 40`
(so `current_stint_lap ≥ max_stint_length`), the fitted model `demoModel`
returns a one-element `predicted_lap_times`, not the empty sequence the
claim asserts. -/
theorem predicted_lap_times_empty_counterexample :
    fit [1, 2, 3, 4, 5] [90, 90.5, 91, 91.5, 92] 2 = .ok demoModel ∧
    (40 : ℤ) ≤ 40 ∧
    (predictPitWindow demoModel 40 40).predicted_lap_times ≠ [] := by
  refine ⟨fit_demo, le_refl _, ?_⟩
  rw [predictPitWindow_times, futureLaps_self]
  simp

/-! ## Strategy impact: projection and rank facts -/

theorem sortByKey_eq {α : Type} (key : α → ℚ) (l : List α) :
    sortByKey key l = l.insertionSort fun a b => key a ≤ key b := rfl

theorem projectedEntry_is_target (target : ℤ) (tp : ℚ) (d : DriverLapData) :
    (projectedEntry target tp d).is_target = decide (d.driver_number = target) := by
  unfold projectedEntry
  split
  · simp [*]
  · simp [*]

theorem projectedEntry_time (target : ℤ) (tp : ℚ) (d : DriverLapData) :
    (projectedEntry target tp d).projected_time =
      if d.driver_number = target then tp else d.total_time + d.avg_lap_time := by
  unfold projectedEntry
  split
  · simp [*]
  · simp [*]

theorem projectedEntry_number (target : ℤ) (tp : ℚ) (d : DriverLapData) :
    (projectedEntry target tp d).driver_number = d.driver_number := by
  unfold projectedEntry
  split <;> rfl

/-- Inversion of a successful `predict_strategy_impact`. -/
theorem predictStrategyImpact_ok_inv {target : ℤ} {drivers : List DriverLapData}
    {pst fa : ℚ} {fl : ℕ} {td : DriverLapData} {r : StrategyImpactResponse}
    (hfind : drivers.find? (fun d => decide (d.driver_number = target)) = some td)
    (hok : predictStrategyImpact target drivers pst fa fl = .ok r) :
    r = strategyImpact target drivers td pst fa fl := by
  have hne : drivers ≠ [] := List.ne_nil_of_mem (List.mem_of_find?_eq_some hfind)
  unfold predictStrategyImpact at hok
  rw [if_neg hne, hfind] at hok
  exact (Except.ok.inj hok).symm

theorem strategyImpact_current (target : ℤ) (drivers : List DriverLapData)
    (td : DriverLapData) (pst fa : ℚ) (fl : ℕ) :
    (strategyImpact target drivers td pst fa fl).current_position =
      posOfFindIdx ((sortByKey (·.total_time) drivers).findIdx?
        (fun d => decide (d.driver_number = target))) := rfl

theorem strategyImpact_projected (target : ℤ) (drivers : List DriverLapData)
    (td : DriverLapData) (pst fa : ℚ) (fl : ℕ) :
    (strategyImpact target drivers td pst fa fl).projected_position =
      posOfFindIdx ((projStandings target (td.total_time + pst) drivers).findIdx?
        (·.is_target)) := rfl

theorem strategyImpact_change (target : ℤ) (drivers : List DriverLapData)
    (td : DriverLapData) (pst fa : ℚ) (fl : ℕ) :
    (strategyImpact target drivers td pst fa fl).position_change =
      ((strategyImpact target drivers td pst fa fl).current_position : ℤ) -
        (strategyImpact target drivers td pst fa fl).projected_position := rfl

theorem strategyImpact_ahead (target : ℤ) (drivers : List DriverLapData)
    (td : DriverLapData) (pst fa : ℚ) (fl : ℕ) :
    (strategyImpact target drivers td pst fa fl).ahead_of =
      (((projStandings target (td.total_time + pst) drivers).enum.drop
          ((((projStandings target (td.total_time + pst) drivers).findIdx?
            (·.is_target)).getD 0) + 1)).take 3).map (fun x =>
        { driver_number := x.2.driver_number
          driver_name := x.2.driver_name
          gap := pyRound3 (x.2.projected_time - (td.total_time + pst))
          position := x.1 + 1 : NearbyDriver }) := rfl

theorem strategyImpact_behind (target : ℤ) (drivers : List DriverLapData)
    (td : DriverLapData) (pst fa : ℚ) (fl : ℕ) :
    (strategyImpact target drivers td pst fa fl).behind_of =
      ((((projStandings target (td.total_time + pst) drivers).enum.take
          (((projStandings target (td.total_time + pst) drivers).findIdx?
            (·.is_target)).getD 0)).drop
          ((((projStandings target (td.total_time + pst) drivers).findIdx?
            (·.is_target)).getD 0) - 3)).map (fun x =>
        { driver_number := x.2.driver_number
          driver_name := x.2.driver_name
          gap := pyRound3 ((td.total_time + pst) - x.2.projected_time)
          position := x.1 + 1 : NearbyDriver })).reverse := rfl

/-- **C5**.  For every non-empty standings list containing the target
driver exactly once: the projection assigns the target its cumulative time
plus `pit_stop_time` (the fresh-tire gain is never subtracted) and every
other driver their cumulative time plus their own average lap time;
`current_position` and `projected_position` are 1-based ranks by ascending
(cumulative, resp. projected) time with ties broken by input order; and
`position_change = current_position − projected_position` exactly. -/
theorem strategy_projection_spec (target : ℤ) (drivers : List DriverLapData)
    (pst fa : ℚ) (fl : ℕ) (td : DriverLapData) (r : StrategyImpactResponse)
    (hfind : drivers.find? (fun d => decide (d.driver_number = target)) = some td)
    (hu : drivers.countP (fun d => decide (d.driver_number = target)) = 1)
    (hok : predictStrategyImpact target drivers pst fa fl = .ok r) :
    ((drivers.map (projectedEntry target (td.total_time + pst))).map
        ProjEntry.projected_time =
      drivers.map fun d => if d.driver_number = target then td.total_time + pst
        else d.total_time + d.avg_lap_time) ∧
    r.current_position = 1 +
      (drivers.countP fun d => decide (d.total_time < td.total_time)) +
      ((drivers.take (drivers.findIdx fun d =>
        decide (d.driver_number = target))).countP fun d =>
          decide (d.total_time = td.total_time)) ∧
    r.projected_position = 1 +
      (drivers.countP fun d =>
        decide ((if d.driver_number = target then td.total_time + pst
          else d.total_time + d.avg_lap_time) < td.total_time + pst)) +
      ((drivers.take (drivers.findIdx fun d =>
        decide (d.driver_number = target))).countP fun d =>
          decide ((if d.driver_number = target then td.total_time + pst
            else d.total_time + d.avg_lap_time) = td.total_time + pst)) ∧
    r.position_change = (r.current_position : ℤ) - r.projected_position := by
  have hr := predictStrategyImpact_ok_inv hfind hok
  subst hr
  have hmem : td ∈ drivers := List.mem_of_find?_eq_some hfind
  have hptd : td.driver_number = target := by simpa using List.find?_some hfind
  have hfun : ((fun (e : ProjEntry) => e.is_target) ∘
      projectedEntry target (td.total_time + pst)) =
      fun d => decide (d.driver_number = target) :=
    funext fun d => by simp [Function.comp, projectedEntry_is_target]
  refine ⟨?_, ?_, ?_, strategyImpact_change target drivers td pst fa fl⟩
  · rw [List.map_map]
    exact List.map_congr_left fun d _ => by
      simpa [Function.comp] using projectedEntry_time target (td.total_time + pst) d
  · rw [strategyImpact_current, sortByKey_eq,
      stable_sort_rank (fun d => d.total_time) (fun d => decide (d.driver_number = target))
        drivers td hmem (by simp [hptd]) hu, posOfFindIdx]
    omega
  · have hmemf : projectedEntry target (td.total_time + pst) td ∈
        drivers.map (projectedEntry target (td.total_time + pst)) :=
      List.mem_map_of_mem _ hmem
    have hpf : (fun (e : ProjEntry) => e.is_target)
        (projectedEntry target (td.total_time + pst) td) = true := by
      simp [projectedEntry_is_target, hptd]
    have huf : (drivers.map (projectedEntry target (td.total_time + pst))).countP
        (fun e => e.is_target) = 1 := by
      rw [List.countP_map, hfun]
      exact hu
    have hrank := stable_sort_rank ProjEntry.projected_time (fun e => e.is_target)
      (drivers.map (projectedEntry target (td.total_time + pst)))
      (projectedEntry target (td.total_time + pst) td) hmemf hpf huf
    have hkeyT : (projectedEntry target (td.total_time + pst) td).projected_time =
        td.total_time + pst := by
      rw [projectedEntry_time]
      simp [hptd]
    rw [hkeyT] at hrank
    have hidx : (drivers.map (projectedEntry target (td.total_time + pst))).findIdx
        (fun e => e.is_target) =
        drivers.findIdx fun d => decide (d.driver_number = target) := by
      have h1 : ((drivers.map (projectedEntry target (td.total_time + pst))).findIdx?
          fun e => e.is_target) =
          drivers.findIdx? fun d => decide (d.driver_number = target) := by
        rw [List.findIdx?_map, hfun]
      have h2 : (drivers.findIdx? fun d => decide (d.driver_number = target)) =
          some (drivers.findIdx fun d => decide (d.driver_number = target)) :=
        List.findIdx?_eq_some_of_exists ⟨td, hmem, by simp [hptd]⟩
      have h3 : ((drivers.map (projectedEntry target (td.total_time + pst))).findIdx?
          fun e => e.is_target) =
          some ((drivers.map (projectedEntry target (td.total_time + pst))).findIdx
            fun e => e.is_target) :=
        List.findIdx?_eq_some_of_exists ⟨_, hmemf, hpf⟩
      exact Option.some.inj (h3.symm.trans (h1.trans h2))
    have hA : (drivers.map (projectedEntry target (td.total_time + pst))).countP
        (fun y => decide (y.projected_time < td.total_time + pst)) =
        drivers.countP fun d =>
          decide ((if d.driver_number = target then td.total_time + pst
            else d.total_time + d.avg_lap_time) < td.total_time + pst) := by
      rw [List.countP_map]
      exact List.countP_congr fun d _ => by
        simp [Function.comp, projectedEntry_time]
    have hB : (((drivers.map (projectedEntry target (td.total_time + pst))).take
        ((drivers.map (projectedEntry target (td.total_time + pst))).findIdx
          fun e => e.is_target)).countP
        fun y => decide (y.projected_time = td.total_time + pst)) =
        ((drivers.take (drivers.findIdx fun d =>
          decide (d.driver_number = target))).countP fun d =>
            decide ((if d.driver_number = target then td.total_time + pst
              else d.total_time + d.avg_lap_time) = td.total_time + pst)) := by
      rw [hidx, ← List.map_take, List.countP_map]
      exact List.countP_congr fun d _ => by
        simp [Function.comp, projectedEntry_time]
    rw [strategyImpact_projected,
      show projStandings target (td.total_time + pst) drivers =
        (drivers.map (projectedEntry target (td.total_time + pst))).insertionSort
          (fun a b => a.projected_time ≤ b.projected_time) from rfl,
      hrank, posOfFindIdx, hA, hB]
    omega

theorem pyRound3_nonneg {x : ℚ} (hx : 0 ≤ x) : 0 ≤ pyRound3 x := by
  unfold pyRound3
  apply div_nonneg _ (by norm_num)
  have h : (0:ℤ) ≤ round (x * 1000) := by
    rw [round_eq]
    exact Int.le_floor.mpr (by push_cast; linarith)
  exact_mod_cast h

theorem pyRound3_mono {x y : ℚ} (h : x ≤ y) : pyRound3 x ≤ pyRound3 y := by
  unfold pyRound3
  have hr : round (x * 1000) ≤ round (y * 1000) := by
    rw [round_eq, round_eq]
    exact Int.floor_le_floor (by linarith)
  gcongr

/-- Every `is_target` entry of the projected standings carries the
target's projected time. -/
theorem projStandings_target_time (target : ℤ) (tp : ℚ)
    (drivers : List DriverLapData) (e : ProjEntry)
    (he : e ∈ projStandings target tp drivers) (htgt : e.is_target = true) :
    e.projected_time = tp := by
  have hperm : (projStandings target tp drivers).Perm
      (drivers.map (projectedEntry target tp)) := List.perm_insertionSort _ _
  rcases List.mem_map.mp (hperm.mem_iff.mp he) with ⟨d, _, rfl⟩
  rw [projectedEntry_is_target, decide_eq_true_eq] at htgt
  rw [projectedEntry_time, if_pos htgt]

/-- The spec's strategy scenario: standings
`[{A,100.0,20.0},{B,98.0,19.8},{C,105.0,21.0}]`. -/
def demoDrivers : List DriverLapData :=
  [⟨1, "A", 100, 20, 10⟩, ⟨2, "B", 98, 19.8, 10⟩, ⟨3, "C", 105, 21, 10⟩]

/-- Driver A, the target of the spec's strategy scenario. -/
def demoTarget : DriverLapData := ⟨1, "A", 100, 20, 10⟩

/-- The response computed for the spec's strategy scenario (target
projected at `122.0`; B at `117.8` stays ahead, C at `126.0` stays
behind). -/
def demoResponse : StrategyImpactResponse :=
  { current_position := 2
    projected_position := 2
    position_change := 0
    time_lost_in_pit := 22
    time_gained_fresh_tires := 5/2
    net_time_impact := 39/2
    ahead_of := [⟨3, "C", 4, 3⟩]
    behind_of := [⟨2, "B", 21/5, 1⟩] }

theorem demo_find : demoDrivers.find? (fun d => decide (d.driver_number = 1)) =
    some demoTarget := by
  norm_num [demoDrivers, demoTarget, List.find?]

theorem demo_count : demoDrivers.countP (fun d => decide (d.driver_number = 1)) = 1 := by
  norm_num [demoDrivers, List.countP_cons]

theorem demo_impact : predictStrategyImpact 1 demoDrivers 22 0.5 5 = .ok demoResponse := by
  norm_num [predictStrategyImpact, strategyImpact, projStandings, sortByKey,
    projectedEntry, posOfFindIdx, pyRound3, demoDrivers, demoResponse, List.find?,
    List.enum, List.enumFrom, round_eq]
  intro h
  exact absurd h (List.cons_ne_nil _ _)

/-- Witness for `strategy_projection_spec` on the spec's strategy
scenario. -/
theorem strategy_projection_spec_witness :
    ((demoDrivers.map (projectedEntry 1 (demoTarget.total_time + 22))).map
        ProjEntry.projected_time =
      demoDrivers.map fun d => if d.driver_number = 1 then demoTarget.total_time + 22
        else d.total_time + d.avg_lap_time) ∧
    demoResponse.current_position = 1 +
      (demoDrivers.countP fun d => decide (d.total_time < demoTarget.total_time)) +
      ((demoDrivers.take (demoDrivers.findIdx fun d =>
        decide (d.driver_number = 1))).countP fun d =>
          decide (d.total_time = demoTarget.total_time)) ∧
    demoResponse.projected_position = 1 +
      (demoDrivers.countP fun d =>
        decide ((if d.driver_number = 1 then demoTarget.total_time + 22
          else d.total_time + d.avg_lap_time) < demoTarget.total_time + 22)) +
      ((demoDrivers.take (demoDrivers.findIdx fun d =>
        decide (d.driver_number = 1))).countP fun d =>
          decide ((if d.driver_number = 1 then demoTarget.total_time + 22
            else d.total_time + d.avg_lap_time) = demoTarget.total_time + 22)) ∧
    demoResponse.position_change =
      (demoResponse.current_position : ℤ) - demoResponse.projected_position :=
  strategy_projection_spec 1 demoDrivers 22 0.5 5 demoTarget demoResponse
    demo_find demo_count demo_impact

/-- **C6** (amended).  For every projection result: `ahead_of` consists of
the up-to-3 drivers immediately after the target in the projected ranking
with `gap = their_projected_time − target_projected_time`; these gaps are
non-negative and *non-decreasing* in ranking order (ties in projected time
produce equal gaps, so the original claim's "strictly increasing" fails);
`behind_of` consists of the up-to-3 drivers immediately before the target
with `gap = target_projected_time − their_projected_time`, listed
nearest-first (its first entry is the driver at projected position
`target_idx`, directly in front of the target's `target_idx + 1`). -/
theorem strategy_nearby_spec (target : ℤ) (drivers : List DriverLapData)
    (pst fa : ℚ) (fl : ℕ) (td : DriverLapData) (r : StrategyImpactResponse)
    (hfind : drivers.find? (fun d => decide (d.driver_number = target)) = some td)
    (hok : predictStrategyImpact target drivers pst fa fl = .ok r) :
    (r.ahead_of.map (fun nb => (nb.driver_number, nb.gap)) =
      (((projStandings target (td.total_time + pst) drivers).drop
          ((((projStandings target (td.total_time + pst) drivers).findIdx?
            (·.is_target)).getD 0) + 1)).take 3).map
        fun e => (e.driver_number, pyRound3 (e.projected_time - (td.total_time + pst)))) ∧
    (∀ nb ∈ r.ahead_of, 0 ≤ nb.gap) ∧
    (r.ahead_of.map NearbyDriver.gap).Chain' (· ≤ ·) ∧
    (r.behind_of.map (fun nb => (nb.driver_number, nb.gap)) =
      ((((projStandings target (td.total_time + pst) drivers).take
          (((projStandings target (td.total_time + pst) drivers).findIdx?
            (·.is_target)).getD 0)).drop
          ((((projStandings target (td.total_time + pst) drivers).findIdx?
            (·.is_target)).getD 0) - 3)).map
        fun e => (e.driver_number, pyRound3 ((td.total_time + pst) - e.projected_time))).reverse) ∧
    (0 < (((projStandings target (td.total_time + pst) drivers).findIdx?
        (·.is_target)).getD 0) →
      r.behind_of.head?.map NearbyDriver.position =
        some (((projStandings target (td.total_time + pst) drivers).findIdx?
          (·.is_target)).getD 0)) := by
  have hr := predictStrategyImpact_ok_inv hfind hok
  subst hr
  have hmem : td ∈ drivers := List.mem_of_find?_eq_some hfind
  have hptd : td.driver_number = target := by simpa using List.find?_some hfind
  haveI : IsTotal ProjEntry (fun a b => a.projected_time ≤ b.projected_time) :=
    ⟨fun a b => le_total _ _⟩
  haveI : IsTrans ProjEntry (fun a b => a.projected_time ≤ b.projected_time) :=
    ⟨fun _ _ _ h1 h2 => le_trans h1 h2⟩
  have hperm : (projStandings target (td.total_time + pst) drivers).Perm
      (drivers.map (projectedEntry target (td.total_time + pst))) :=
    List.perm_insertionSort _ _
  have hsort : (projStandings target (td.total_time + pst) drivers).Sorted
      (fun a b => a.projected_time ≤ b.projected_time) :=
    List.sorted_insertionSort _ _
  obtain ⟨t, hfi⟩ : ∃ i, (projStandings target (td.total_time + pst) drivers).findIdx?
      (·.is_target) = some i :=
    ⟨_, List.findIdx?_eq_some_of_exists ⟨_,
      hperm.mem_iff.mpr (List.mem_map_of_mem _ hmem),
      by simp [projectedEntry_is_target, hptd]⟩⟩
  have hgetD : (((projStandings target (td.total_time + pst) drivers).findIdx?
      (·.is_target)).getD 0) = t := by
    rw [hfi]
    rfl
  rcases List.findIdx?_eq_some_iff_getElem.mp hfi with ⟨hlt, hptgt, _⟩
  have htpt : ((projStandings target (td.total_time + pst) drivers)[t]).projected_time =
      td.total_time + pst :=
    projStandings_target_time target _ drivers _ (List.getElem_mem hlt)
      (by simpa using hptgt)
  have hge : ∀ e ∈ (projStandings target (td.total_time + pst) drivers).drop (t + 1),
      td.total_time + pst ≤ e.projected_time := by
    intro e he
    rcases List.getElem_of_mem he with ⟨j, hj, rfl⟩
    rw [List.getElem_drop]
    have hj2 : t + 1 + j < (projStandings target (td.total_time + pst) drivers).length := by
      have := List.length_drop (t + 1) (projStandings target (td.total_time + pst) drivers)
      omega
    have hrel := hsort.rel_get_of_lt (a := ⟨t, hlt⟩) (b := ⟨t + 1 + j, hj2⟩)
      (by exact Fin.mk_lt_mk.mpr (by omega))
    rw [List.get_eq_getElem, List.get_eq_getElem] at hrel
    simp only at hrel
    rw [htpt] at hrel
    exact hrel
  have hslice : (((projStandings target (td.total_time + pst) drivers).enum.drop
      (t + 1)).take 3).map Prod.snd =
      ((projStandings target (td.total_time + pst) drivers).drop (t + 1)).take 3 := by
    rw [List.map_take, List.map_drop, List.enum_map_snd]
  refine ⟨?_, ?_, ?_, ?_, ?_⟩
  · rw [strategyImpact_ahead, hgetD, ← hslice, List.map_map, List.map_map]
    rfl
  · intro nb hnb
    rw [strategyImpact_ahead, hgetD] at hnb
    rcases List.mem_map.mp hnb with ⟨x, hx, rfl⟩
    have hx2 : x.2 ∈ ((projStandings target (td.total_time + pst) drivers).drop
        (t + 1)).take 3 := by
      rw [← hslice]
      exact List.mem_map_of_mem Prod.snd hx
    have := hge x.2 (List.mem_of_mem_take hx2)
    exact pyRound3_nonneg (by linarith)
  · rw [strategyImpact_ahead, hgetD, List.map_map]
    rw [List.chain'_iff_pairwise]
    have hpw_enum : (projStandings target (td.total_time + pst) drivers).enum.Pairwise
        (fun a b => a.2.projected_time ≤ b.2.projected_time) := by
      have h1 := hsort
      rw [show projStandings target (td.total_time + pst) drivers =
        (projStandings target (td.total_time + pst) drivers).enum.map Prod.snd from
        (List.enum_map_snd _).symm] at h1
      exact (List.pairwise_map (f := Prod.snd)).mp h1
    have hpw_slice : ((((projStandings target (td.total_time + pst) drivers).enum.drop
        (t + 1)).take 3)).Pairwise
        (fun a b => a.2.projected_time ≤ b.2.projected_time) :=
      hpw_enum.sublist ((List.take_sublist _ _).trans (List.drop_sublist _ _))
    exact hpw_slice.map _ fun a b h => pyRound3_mono (by linarith)
  · rw [strategyImpact_behind, hgetD, List.map_reverse, List.map_map]
    have hslice2 : (((projStandings target (td.total_time + pst) drivers).enum.take
        t).drop (t - 3)).map Prod.snd =
        ((projStandings target (td.total_time + pst) drivers).take t).drop (t - 3) := by
      rw [List.map_drop, List.map_take, List.enum_map_snd]
    rw [← hslice2, List.map_map]
    rfl
  · intro ht0
    rw [hgetD] at ht0 ⊢
    rw [strategyImpact_behind, hgetD, List.head?_reverse]
    have hlen1 : ((projStandings target (td.total_time + pst) drivers).enum.take
        t).length = t := by
      rw [List.length_take, List.enum_length]
      omega
    have hlen2 : (((projStandings target (td.total_time + pst) drivers).enum.take
        t).drop (t - 3)).length = t - (t - 3) := by
      rw [List.length_drop, hlen1]
    rw [List.getLast?_eq_getElem?, List.length_map, hlen2]
    have hidx : (t - 3) + (t - (t - 3) - 1) = t - 1 := by omega
    rw [List.getElem?_map, List.getElem?_drop, hidx, List.getElem?_take]
    rw [if_pos (by omega), List.getElem?_eq_getElem
      (by rw [List.enum_length]; omega)]
    rw [List.getElem_enum]
    simp only [Option.map_some']
    congr 1
    omega

/-- A standings list in which two drivers tie on projected time behind the
target: B and C both project to `123.0` while the target projects to
`122.0`. -/
def tieDrivers : List DriverLapData :=
  [⟨1, "A", 100, 20, 10⟩, ⟨2, "B", 100, 23, 10⟩, ⟨3, "C", 100, 23, 10⟩]

/-- The response computed for `tieDrivers`. -/
def tieResponse : StrategyImpactResponse :=
  { current_position := 1
    projected_position := 1
    position_change := 0
    time_lost_in_pit := 22
    time_gained_fresh_tires := 5/2
    net_time_impact := 39/2
    ahead_of := [⟨2, "B", 1, 2⟩, ⟨3, "C", 1, 3⟩]
    behind_of := [] }

/-- **C6** counterexample.  With two drivers tied at projected time `123.0`
directly after the target (projected `122.0`), the `ahead_of` gaps are
`[1, 1]` — non-negative but *not* strictly increasing in ranking order. -/
theorem strategy_gaps_strict_counterexample :
    predictStrategyImpact 1 tieDrivers 22 0.5 5 = .ok tieResponse ∧
    tieResponse.ahead_of.map NearbyDriver.gap = [1, 1] ∧
    ¬ (tieResponse.ahead_of.map NearbyDriver.gap).Chain' (· < ·) := by
  refine ⟨?_, by norm_num [tieResponse], ?_⟩
  · norm_num [predictStrategyImpact, strategyImpact, projStandings, sortByKey,
      projectedEntry, posOfFindIdx, pyRound3, tieDrivers, tieResponse, List.find?,
      List.enum, List.enumFrom, round_eq]
    intro h
    exact absurd h (List.cons_ne_nil _ _)
  · norm_num [tieResponse, List.chain'_cons]

/-- Witness for `strategy_nearby_spec` on the spec's strategy scenario. -/
theorem strategy_nearby_spec_witness :
    (demoResponse.ahead_of.map (fun nb => (nb.driver_number, nb.gap)) =
      (((projStandings 1 (demoTarget.total_time + 22) demoDrivers).drop
          ((((projStandings 1 (demoTarget.total_time + 22) demoDrivers).findIdx?
            (·.is_target)).getD 0) + 1)).take 3).map
        fun e => (e.driver_number,
          pyRound3 (e.projected_time - (demoTarget.total_time + 22)))) ∧
    (∀ nb ∈ demoResponse.ahead_of, 0 ≤ nb.gap) ∧
    (demoResponse.ahead_of.map NearbyDriver.gap).Chain' (· ≤ ·) ∧
    (demoResponse.behind_of.map (fun nb => (nb.driver_number, nb.gap)) =
      ((((projStandings 1 (demoTarget.total_time + 22) demoDrivers).take
          (((projStandings 1 (demoTarget.total_time + 22) demoDrivers).findIdx?
            (·.is_target)).getD 0)).drop
          ((((projStandings 1 (demoTarget.total_time + 22) demoDrivers).findIdx?
            (·.is_target)).getD 0) - 3)).map
        fun e => (e.driver_number,
          pyRound3 ((demoTarget.total_time + 22) - e.projected_time))).reverse) ∧
    (0 < (((projStandings 1 (demoTarget.total_time + 22) demoDrivers).findIdx?
        (·.is_target)).getD 0) →
      demoResponse.behind_of.head?.map NearbyDriver.position =
        some (((projStandings 1 (demoTarget.total_time + 22) demoDrivers).findIdx?
          (·.is_target)).getD 0)) :=
  strategy_nearby_spec 1 demoDrivers 22 0.5 5 demoTarget demoResponse
    demo_find demo_impact

end F1
